import Mathlib

/-!
# Modified Moving Average (MMA.c / MMA.h)

A shallow embedding of the registry of modified moving averages.

* The static table `mmaList[MAX_AVERAGES]` is a function from `Fin MAX_AVERAGES`
  to slots, so it has exactly `MAX_AVERAGES` entries and every access is in range.
* The machine integers are natural numbers; every C operation that can wrap is
  written with its explicit modulus (`2^32 = 4294967296` for `uint32_t`,
  `2^16 = 65536` for `uint16_t`, `2^8 = 256` for `uint8_t`).
* Each C function takes the table (and the previous content of its output
  parameter, when it has one) and returns its return code together with the
  table and the output cell after the call.
-/

namespace MMA

/-! ## MMA.h -/

/-- The constant `#define NUMBER_OF_SAMPLES 8`. -/
def NUMBER_OF_SAMPLES : Nat := 8

/-- The constant `#define MAX_AVERAGES 2`. -/
def MAX_AVERAGES : Nat := 2

/-- The enumeration `avgState_t`. -/
inductive avgState_t where
  | AVG_UNUSED
  | AVG_USED
  deriving DecidableEq, Repr

/-- The enumeration `mma_error_t`. -/
inductive mma_error_t where
  | MMA_ERR_OUT_OF_BOUND
  | MMA_ERR_ALL_ID_USED
  | MMA_ERR_ID_UNREGISTERED
  | MMA_ERR_OVERFLOW
  | MMA_SUCCESS
  deriving DecidableEq, Repr

open avgState_t mma_error_t

/-- The integer value of each enumerator of `mma_error_t`
(`MMA_ERR_OUT_OF_BOUND = -4`, the following ones count upwards). -/
def mma_error_t.toInt : mma_error_t → Int
  | MMA_ERR_OUT_OF_BOUND => -4
  | MMA_ERR_ALL_ID_USED => -3
  | MMA_ERR_ID_UNREGISTERED => -2
  | MMA_ERR_OVERFLOW => -1
  | MMA_SUCCESS => 0

/-! ## MMA.c : data -/

/-- The record `struct MovingAverage`: `state`, `uint16_t average`, `uint32_t sum`. -/
structure MovingAverage where
  state : avgState_t
  average : Nat
  sum : Nat
  deriving DecidableEq, Repr

/-- The table `static struct MovingAverage mmaList [MAX_AVERAGES]`. -/
abbrev Registry : Type := Fin MAX_AVERAGES → MovingAverage

/-- The zero-initialised static table: `AVG_UNUSED` is enumerator 0. -/
def mmaList_init : Registry := fun _ => { state := AVG_UNUSED, average := 0, sum := 0 }

/-- Store through the pointer `&mmaList[i]`: slot `i` is replaced, the others are kept. -/
def setSlot (mmaList : Registry) (i : Fin MAX_AVERAGES) (mma : MovingAverage) : Registry :=
  fun j => if j = i then mma else mmaList j

/-- Subtraction of `uint32_t` values. -/
def sub32 (a b : Nat) : Nat := (a % 4294967296 + 4294967296 - b % 4294967296) % 4294967296

/-- Addition of `uint32_t` values. -/
def add32 (a b : Nat) : Nat := (a + b) % 4294967296

/-- Conversion of a `uint32_t` value to `uint16_t`. -/
def toU16 (a : Nat) : Nat := a % 65536

/-- Outcome of `avg_register`: return code, table, and the cell `*avgID`. -/
structure RegisterOut where
  ret : mma_error_t
  mmaList : Registry
  avgID : Nat

/-- Outcome of `avg_free`, `avg_moveTheAverage` and `avg_reset`: return code and table. -/
structure CallOut where
  ret : mma_error_t
  mmaList : Registry

/-- Outcome of `avg_getAverage`: return code, table, and the cell `*average`. -/
structure GetOut where
  ret : mma_error_t
  mmaList : Registry
  average : Nat

/-! ## MMA.c : functions -/

/-- The `for (uint8_t i = ...; i < MAX_AVERAGES; i++)` loop of `avg_register`,
entered with loop variable `i`; `avgID` is the content of `*avgID` before the call. -/
def avg_register_loop (mmaList : Registry) (avgID : Nat) (i : Nat) : RegisterOut :=
  if h : i < MAX_AVERAGES then
    let mma := mmaList ⟨i, h⟩
    if mma.state = AVG_UNUSED then
      { ret := MMA_SUCCESS
        mmaList := setSlot mmaList ⟨i, h⟩ { mma with average := 0, state := AVG_USED, sum := 0 }
        avgID := i }
    else
      avg_register_loop mmaList avgID ((i + 1) % 256)
  else
    { ret := MMA_ERR_ALL_ID_USED, mmaList := mmaList, avgID := avgID }
termination_by MAX_AVERAGES - i
decreasing_by
  simp only [MAX_AVERAGES] at *
  omega

/-- The function `avg_register(uint8_t *avgID)`. -/
def avg_register (mmaList : Registry) (avgID : Nat) : RegisterOut :=
  avg_register_loop mmaList avgID 0

/-- The function `avg_free(uint8_t avgID)`. The test `avgID >= 0` is true of every `uint8_t`. -/
def avg_free (mmaList : Registry) (avgID : Nat) : CallOut :=
  if h : avgID < MAX_AVERAGES then
    let mma := mmaList ⟨avgID, h⟩
    if mma.state ≠ AVG_UNUSED then
      { ret := MMA_ERR_ID_UNREGISTERED, mmaList := mmaList }
    else
      { ret := MMA_SUCCESS
        mmaList := setSlot mmaList ⟨avgID, h⟩
          { mma with average := 0, state := AVG_UNUSED, sum := 0 } }
  else
    { ret := MMA_ERR_OUT_OF_BOUND, mmaList := mmaList }

/-- The overflow test `(65535 - mma->sum + mma->average) < (newValue)`, whose left side is
computed in `uint32_t`. -/
def overflowTest (mma : MovingAverage) (newValue : Nat) : Bool :=
  decide (add32 (sub32 65535 mma.sum) mma.average < newValue)

/-- The three assignments under `//move the average`. -/
def moveSlot (mma : MovingAverage) (newValue : Nat) : MovingAverage :=
  let sum1 := sub32 mma.sum mma.average
  let sum2 := add32 sum1 newValue
  { mma with sum := sum2, average := toU16 (sum2 / NUMBER_OF_SAMPLES) }

/-- The function `avg_moveTheAverage(uint8_t avgID, uint16_t newValue)`.
After the update the control leaves the `if` block and reaches the final
`return MMA_ERR_OUT_OF_BOUND;`. -/
def avg_moveTheAverage (mmaList : Registry) (avgID newValue : Nat) : CallOut :=
  if h : avgID < MAX_AVERAGES then
    let mma := mmaList ⟨avgID, h⟩
    if overflowTest mma newValue then
      { ret := MMA_ERR_OVERFLOW, mmaList := mmaList }
    else
      { ret := MMA_ERR_OUT_OF_BOUND
        mmaList := setSlot mmaList ⟨avgID, h⟩ (moveSlot mma newValue) }
  else
    { ret := MMA_ERR_OUT_OF_BOUND, mmaList := mmaList }

/-- The function `avg_getAverage(uint8_t avgID, uint16_t *average)`; `average` is the
content of `*average` before the call. -/
def avg_getAverage (mmaList : Registry) (avgID : Nat) (average : Nat) : GetOut :=
  if h : avgID < MAX_AVERAGES then
    let mma := mmaList ⟨avgID, h⟩
    if mma.state ≠ AVG_USED then
      { ret := MMA_ERR_ID_UNREGISTERED, mmaList := mmaList, average := average }
    else
      { ret := MMA_SUCCESS, mmaList := mmaList, average := mma.average }
  else
    { ret := MMA_ERR_OUT_OF_BOUND, mmaList := mmaList, average := average }

/-- The function `avg_reset(uint8_t avgID)`. -/
def avg_reset (mmaList : Registry) (avgID : Nat) : CallOut :=
  if h : avgID < MAX_AVERAGES then
    let mma := mmaList ⟨avgID, h⟩
    if mma.state ≠ AVG_USED then
      { ret := MMA_ERR_ID_UNREGISTERED, mmaList := mmaList }
    else
      { ret := MMA_SUCCESS
        mmaList := setSlot mmaList ⟨avgID, h⟩
          { mma with average := 0, state := AVG_USED, sum := 0 } }
  else
    { ret := MMA_ERR_OUT_OF_BOUND, mmaList := mmaList }


/-- Successive calls of `avg_register`: the return code and the content of `*avgID` after each
call, in call order, and the table after the last call. -/
def registerCalls (mmaList : Registry) (avgID : Nat) : Nat → List (mma_error_t × Nat) × Registry
  | 0 => ([], mmaList)
  | n + 1 =>
    let out := avg_register mmaList avgID
    let rest := registerCalls out.mmaList out.avgID n
    ((out.ret, out.avgID) :: rest.1, rest.2)

/-- The index of the first slot of the table. -/
def slot0 : Fin MAX_AVERAGES := ⟨0, by decide⟩

/-- The index of the second slot of the table. -/
def slot1 : Fin MAX_AVERAGES := ⟨1, by decide⟩

/-- A table whose two slots are the given ones. -/
def tableOf (a b : MovingAverage) : Registry := fun j => if j.val = 0 then a else b

/-- The table after one registration on the zero-initialised table: slot 0 is in use. -/
def freshTable : Registry := (avg_register mmaList_init 0).mmaList

/-- The table after the sample 80 was given to slot 0 of `freshTable`. -/
def table80 : Registry := (avg_moveTheAverage freshTable 0 80).mmaList

/-- The table after the sample 8 was given to slot 0 of `table80`. -/
def table80_8 : Registry := (avg_moveTheAverage table80 0 8).mmaList

/-- The table after the sample 65535 was given to slot 0 of `freshTable`. -/
def tableMax : Registry := (avg_moveTheAverage freshTable 0 65535).mmaList

/-- A table with slot 0 in use (sum 24, average 3) and slot 1 free. -/
def sampleTable : Registry := tableOf ⟨AVG_USED, 3, 24⟩ ⟨AVG_UNUSED, 0, 0⟩

/-- The invariant of a slot: the average is the truncated quotient of the sum, and the sum
fits in 16 bits. -/
def SlotInv (mma : MovingAverage) : Prop :=
  mma.average = mma.sum / NUMBER_OF_SAMPLES ∧ mma.sum ≤ 65535

/-- The tables that the program can reach from the zero-initialised table by calls of the five
functions, with arguments of their C types (`uint8_t` identifiers and output cell,
`uint16_t` sample and output cell). -/
inductive Reachable : Registry → Prop where
  | init : Reachable mmaList_init
  | register (mmaList : Registry) (avgID : Nat) :
      avgID < 256 → Reachable mmaList → Reachable (avg_register mmaList avgID).mmaList
  | free (mmaList : Registry) (avgID : Nat) :
      avgID < 256 → Reachable mmaList → Reachable (avg_free mmaList avgID).mmaList
  | moveTheAverage (mmaList : Registry) (avgID newValue : Nat) :
      avgID < 256 → newValue < 65536 → Reachable mmaList →
      Reachable (avg_moveTheAverage mmaList avgID newValue).mmaList
  | getAverage (mmaList : Registry) (avgID average : Nat) :
      avgID < 256 → average < 65536 → Reachable mmaList →
      Reachable (avg_getAverage mmaList avgID average).mmaList
  | reset (mmaList : Registry) (avgID : Nat) :
      avgID < 256 → Reachable mmaList → Reachable (avg_reset mmaList avgID).mmaList

/-- A call of one of the five functions with its arguments; for the two functions with an
output parameter the argument is the content of the output cell before the call. -/
inductive Call where
  | register (avgID : Nat)
  | free (avgID : Nat)
  | moveTheAverage (avgID newValue : Nat)
  | getAverage (avgID average : Nat)
  | reset (avgID : Nat)

/-- The return code of a call on a table. -/
def Call.ret (c : Call) (mmaList : Registry) : mma_error_t :=
  match c with
  | Call.register avgID => (avg_register mmaList avgID).ret
  | Call.free avgID => (avg_free mmaList avgID).ret
  | Call.moveTheAverage avgID newValue => (avg_moveTheAverage mmaList avgID newValue).ret
  | Call.getAverage avgID average => (avg_getAverage mmaList avgID average).ret
  | Call.reset avgID => (avg_reset mmaList avgID).ret

/-- The table after a call. -/
def Call.after (c : Call) (mmaList : Registry) : Registry :=
  match c with
  | Call.register avgID => (avg_register mmaList avgID).mmaList
  | Call.free avgID => (avg_free mmaList avgID).mmaList
  | Call.moveTheAverage avgID newValue => (avg_moveTheAverage mmaList avgID newValue).mmaList
  | Call.getAverage avgID average => (avg_getAverage mmaList avgID average).mmaList
  | Call.reset avgID => (avg_reset mmaList avgID).mmaList

/-- The table after a sequence of calls, made in list order. -/
def runCalls (mmaList : Registry) : List Call → Registry
  | [] => mmaList
  | c :: cs => runCalls (c.after mmaList) cs

/-- The number of calls of `avg_register` in a sequence of calls that return `MMA_SUCCESS`. -/
def successfulRegistrations (mmaList : Registry) : List Call → Nat
  | [] => 0
  | c :: cs =>
    (match c with
      | Call.register avgID => if (avg_register mmaList avgID).ret = MMA_SUCCESS then 1 else 0
      | _ => 0)
    + successfulRegistrations (c.after mmaList) cs

/-- The number of slots of a table that are `AVG_USED`. -/
def usedCount (mmaList : Registry) : Nat :=
  (Finset.univ.filter (fun j : Fin MAX_AVERAGES => (mmaList j).state = AVG_USED)).card

/-- The table after `avg_moveTheAverage` was called for one identifier with each sample of a
list, in list order. -/
def moveCalls (mmaList : Registry) (avgID : Nat) : List Nat → Registry
  | [] => mmaList
  | v :: vs => moveCalls (avg_moveTheAverage mmaList avgID v).mmaList avgID vs

/-- The table after `avg_moveTheAverage` was called `n` times for one identifier with the same
sample. -/
def repeatMove (mmaList : Registry) (avgID v : Nat) : Nat → Registry
  | 0 => mmaList
  | n + 1 => (avg_moveTheAverage (repeatMove mmaList avgID v n) avgID v).mmaList

/-- A table with both slots in use. -/
def fullTable : Registry := tableOf ⟨AVG_USED, 3, 24⟩ ⟨AVG_USED, 0, 0⟩

/-- The table after the sample 80 was given to slot 0 of the zero-initialised table, where no
slot is registered. -/
def unregistered80 : Registry := (avg_moveTheAverage mmaList_init 0 80).mmaList

/-- A sequence of calls on the zero-initialised table in which two registrations succeed. -/
def twoRegistrations : List Call :=
  [Call.register 0, Call.moveTheAverage 0 80, Call.register 0]

/-- A sequence of calls that tries to give both identifiers back. -/
def releaseAttempts : List Call :=
  [Call.free 0, Call.reset 1, Call.free 1, Call.moveTheAverage 1 8]

theorem setSlot_same (mmaList : Registry) (i : Fin MAX_AVERAGES) (mma : MovingAverage) :
    setSlot mmaList i mma i = mma := by
  simp [setSlot]

theorem setSlot_ne (mmaList : Registry) (i j : Fin MAX_AVERAGES) (mma : MovingAverage)
    (h : j ≠ i) : setSlot mmaList i mma j = mmaList j := by
  simp [setSlot, h]

theorem setSlot_setSlot (mmaList : Registry) (i : Fin MAX_AVERAGES) (a b : MovingAverage) :
    setSlot (setSlot mmaList i a) i b = setSlot mmaList i b := by
  funext j
  unfold setSlot
  split <;> rfl

/-- The loop finds the first unused slot at or after its starting index. -/
theorem avg_register_loop_found (mmaList : Registry) (avgID : Nat) (k : Fin MAX_AVERAGES)
    (hk : (mmaList k).state = AVG_UNUSED) :
    ∀ (d i : Nat), i + d = k.val →
      (∀ j : Fin MAX_AVERAGES, i ≤ j.val → j.val < k.val → (mmaList j).state ≠ AVG_UNUSED) →
      avg_register_loop mmaList avgID i =
        { ret := MMA_SUCCESS
          mmaList := setSlot mmaList k { mmaList k with average := 0, state := AVG_USED, sum := 0 }
          avgID := k.val } := by
  intro d
  induction d with
  | zero =>
    intro i hi _
    have hik : i = k.val := by omega
    subst hik
    rw [avg_register_loop]
    simp [hk]
  | succ d ih =>
    intro i hi hmin
    have hlt : i < MAX_AVERAGES := by have := k.isLt; omega
    have hne : (mmaList ⟨i, hlt⟩).state ≠ AVG_UNUSED := hmin ⟨i, hlt⟩ (le_refl _) (by simp; omega)
    have h256 : (i + 1) % 256 = i + 1 := by
      simp only [MAX_AVERAGES] at hlt
      omega
    rw [avg_register_loop]
    simp only [hlt, dite_true, hne, if_false, h256]
    exact ih (i + 1) (by omega) (fun j hj hjk => hmin j (by omega) hjk)

/-- The loop fails, changing nothing, when no slot at or after its starting index is unused. -/
theorem avg_register_loop_full (mmaList : Registry) (avgID : Nat) :
    ∀ (d i : Nat), i + d = MAX_AVERAGES →
      (∀ j : Fin MAX_AVERAGES, i ≤ j.val → (mmaList j).state ≠ AVG_UNUSED) →
      avg_register_loop mmaList avgID i =
        { ret := MMA_ERR_ALL_ID_USED, mmaList := mmaList, avgID := avgID } := by
  intro d
  induction d with
  | zero =>
    intro i hi _
    rw [avg_register_loop]
    simp [show ¬ i < MAX_AVERAGES by omega]
  | succ d ih =>
    intro i hi hall
    have hlt : i < MAX_AVERAGES := by omega
    have hne : (mmaList ⟨i, hlt⟩).state ≠ AVG_UNUSED := hall ⟨i, hlt⟩ (le_refl _)
    have h256 : (i + 1) % 256 = i + 1 := by
      simp only [MAX_AVERAGES] at hlt
      omega
    rw [avg_register_loop]
    simp only [hlt, dite_true, hne, if_false, h256]
    exact ih (i + 1) (by omega) (fun j hj => hall j (by omega))


/-- With `MAX_AVERAGES = 2` the loop of `avg_register` is two tests in a row. -/
theorem avg_register_eq (mmaList : Registry) (avgID : Nat) :
    avg_register mmaList avgID =
      if (mmaList ⟨0, by decide⟩).state = AVG_UNUSED then
        { ret := MMA_SUCCESS
          mmaList := setSlot mmaList ⟨0, by decide⟩ ⟨AVG_USED, 0, 0⟩
          avgID := 0 }
      else if (mmaList ⟨1, by decide⟩).state = AVG_UNUSED then
        { ret := MMA_SUCCESS
          mmaList := setSlot mmaList ⟨1, by decide⟩ ⟨AVG_USED, 0, 0⟩
          avgID := 1 }
      else
        { ret := MMA_ERR_ALL_ID_USED, mmaList := mmaList, avgID := avgID } := by
  unfold avg_register
  rw [avg_register_loop]
  have h0 : (0 : Nat) < MAX_AVERAGES := by decide
  simp only [h0, dite_true]
  split
  · rfl
  · rw [avg_register_loop]
    have h1 : (0 + 1) % 256 < MAX_AVERAGES := by decide
    simp only [h1, dite_true]
    split
    · rfl
    · rw [avg_register_loop]
      have h2 : ¬ ((0 + 1) % 256 + 1) % 256 < MAX_AVERAGES := by decide
      simp only [h2, dite_false]

/-- The table after `avg_register` is the old one, or the old one with one slot initialised. -/
theorem avg_register_mmaList (mmaList : Registry) (avgID : Nat) :
    (avg_register mmaList avgID).mmaList = mmaList ∨
      ∃ k : Fin MAX_AVERAGES, (mmaList k).state = AVG_UNUSED ∧
        (avg_register mmaList avgID).mmaList = setSlot mmaList k ⟨AVG_USED, 0, 0⟩ := by
  by_cases hex : ∃ n : Nat, ∃ h : n < MAX_AVERAGES, (mmaList ⟨n, h⟩).state = AVG_UNUSED
  · right
    obtain ⟨hlt, hk⟩ := Nat.find_spec hex
    refine ⟨⟨Nat.find hex, hlt⟩, hk, ?_⟩
    unfold avg_register
    rw [avg_register_loop_found mmaList avgID ⟨Nat.find hex, hlt⟩ hk (Nat.find hex) 0 (by simp)
      (fun j _ hj hu => Nat.find_min hex hj ⟨j.isLt, hu⟩)]
  · left
    unfold avg_register
    rw [avg_register_loop_full mmaList avgID MAX_AVERAGES 0 (by simp)
      (fun j _ hu => hex ⟨j.val, j.isLt, hu⟩)]

theorem avg_free_of_lt (mmaList : Registry) (avgID : Nat) (h : avgID < MAX_AVERAGES) :
    avg_free mmaList avgID =
      if (mmaList ⟨avgID, h⟩).state ≠ AVG_UNUSED then
        { ret := MMA_ERR_ID_UNREGISTERED, mmaList := mmaList }
      else
        { ret := MMA_SUCCESS
          mmaList := setSlot mmaList ⟨avgID, h⟩ ⟨AVG_UNUSED, 0, 0⟩ } := by
  simp only [avg_free, h, dite_true]

theorem avg_moveTheAverage_of_lt (mmaList : Registry) (avgID newValue : Nat)
    (h : avgID < MAX_AVERAGES) :
    avg_moveTheAverage mmaList avgID newValue =
      if overflowTest (mmaList ⟨avgID, h⟩) newValue then
        { ret := MMA_ERR_OVERFLOW, mmaList := mmaList }
      else
        { ret := MMA_ERR_OUT_OF_BOUND
          mmaList := setSlot mmaList ⟨avgID, h⟩ (moveSlot (mmaList ⟨avgID, h⟩) newValue) } := by
  simp only [avg_moveTheAverage, h, dite_true]

theorem avg_getAverage_of_lt (mmaList : Registry) (avgID average : Nat)
    (h : avgID < MAX_AVERAGES) :
    avg_getAverage mmaList avgID average =
      if (mmaList ⟨avgID, h⟩).state ≠ AVG_USED then
        { ret := MMA_ERR_ID_UNREGISTERED, mmaList := mmaList, average := average }
      else
        { ret := MMA_SUCCESS, mmaList := mmaList, average := (mmaList ⟨avgID, h⟩).average } := by
  simp only [avg_getAverage, h, dite_true]

theorem avg_reset_of_lt (mmaList : Registry) (avgID : Nat) (h : avgID < MAX_AVERAGES) :
    avg_reset mmaList avgID =
      if (mmaList ⟨avgID, h⟩).state ≠ AVG_USED then
        { ret := MMA_ERR_ID_UNREGISTERED, mmaList := mmaList }
      else
        { ret := MMA_SUCCESS
          mmaList := setSlot mmaList ⟨avgID, h⟩ ⟨AVG_USED, 0, 0⟩ } := by
  simp only [avg_reset, h, dite_true]

/-- On a slot satisfying the invariant the 32-bit test decides the comparison of naturals. -/
theorem overflowTest_iff (mma : MovingAverage) (newValue : Nat) (hinv : SlotInv mma) :
    overflowTest mma newValue = true ↔ 65535 + mma.average < mma.sum + newValue := by
  obtain ⟨havg, hsum⟩ := hinv
  simp only [NUMBER_OF_SAMPLES] at havg
  simp only [overflowTest, add32, sub32, decide_eq_true_eq]
  omega

/-- On a slot satisfying the invariant an accepted update computes the recurrence exactly. -/
theorem moveSlot_exact (mma : MovingAverage) (newValue : Nat) (hinv : SlotInv mma)
    (hno : overflowTest mma newValue = false) :
    mma.average ≤ mma.sum ∧
      (moveSlot mma newValue).sum = mma.sum - mma.average + newValue ∧
      (moveSlot mma newValue).sum ≤ 65535 ∧
      (moveSlot mma newValue).average = (moveSlot mma newValue).sum / NUMBER_OF_SAMPLES ∧
      (moveSlot mma newValue).state = mma.state := by
  have hle : ¬ 65535 + mma.average < mma.sum + newValue := by
    rw [← overflowTest_iff mma newValue hinv, hno]
    simp
  obtain ⟨havg, hsum⟩ := hinv
  simp only [NUMBER_OF_SAMPLES] at havg
  simp only [moveSlot, add32, sub32, toU16, NUMBER_OF_SAMPLES]
  refine ⟨by omega, by omega, by omega, by omega, trivial⟩

theorem slotInv_setSlot (mmaList : Registry) (i : Fin MAX_AVERAGES) (mma : MovingAverage)
    (hall : ∀ j, SlotInv (mmaList j)) (hmma : SlotInv mma) :
    ∀ j, SlotInv (setSlot mmaList i mma j) := by
  intro j
  unfold setSlot
  split
  · exact hmma
  · exact hall j

theorem slotInv_zero (s : avgState_t) : SlotInv ⟨s, 0, 0⟩ := by
  simp [SlotInv]

/-- Every slot of a reachable table satisfies the invariant. -/
theorem reachable_slotInv (mmaList : Registry) (hr : Reachable mmaList) :
    ∀ j, SlotInv (mmaList j) := by
  induction hr with
  | init => intro j; exact slotInv_zero _
  | register r a _ _ ih =>
    rcases avg_register_mmaList r a with h | ⟨k, _, h⟩
    · rw [h]; exact ih
    · rw [h]; exact slotInv_setSlot r k _ ih (slotInv_zero _)
  | free r a _ _ ih =>
    by_cases h : a < MAX_AVERAGES
    · rw [avg_free_of_lt r a h]
      split
      · exact ih
      · exact slotInv_setSlot r _ _ ih (slotInv_zero _)
    · simp only [avg_free, h, dite_false]; exact ih
  | moveTheAverage r a v _ _ _ ih =>
    by_cases h : a < MAX_AVERAGES
    · rw [avg_moveTheAverage_of_lt r a v h]
      split
      · exact ih
      · rename_i hno
        have hno2 : overflowTest (r ⟨a, h⟩) v = false := by simpa using hno
        obtain ⟨_, _, h3, h4, _⟩ := moveSlot_exact (r ⟨a, h⟩) v (ih _) hno2
        exact slotInv_setSlot r _ _ ih ⟨h4, h3⟩
    · simp only [avg_moveTheAverage, h, dite_false]; exact ih
  | getAverage r a v _ _ _ ih =>
    by_cases h : a < MAX_AVERAGES
    · rw [avg_getAverage_of_lt r a v h]
      split <;> exact ih
    · simp only [avg_getAverage, h, dite_false]; exact ih
  | reset r a _ _ ih =>
    by_cases h : a < MAX_AVERAGES
    · rw [avg_reset_of_lt r a h]
      split
      · exact ih
      · exact slotInv_setSlot r _ _ ih (slotInv_zero _)
    · simp only [avg_reset, h, dite_false]; exact ih

/-! ## Claims -/

/-- C1: starting from the zero-initialised table (every slot `AVG_UNUSED`, average 0, sum 0),
`MAX_AVERAGES` calls of `avg_register` in a row each return `MMA_SUCCESS` and write the
identifiers `0, 1, ..., MAX_AVERAGES - 1` in that order; the call after them returns
`MMA_ERR_ALL_ID_USED`, whatever the output cell held before. -/
theorem avg_register_fills_table (avgID avgID2 : Nat) :
    (registerCalls mmaList_init avgID MAX_AVERAGES).1
        = (List.range MAX_AVERAGES).map (fun i => (MMA_SUCCESS, i)) ∧
      (avg_register (registerCalls mmaList_init avgID MAX_AVERAGES).2 avgID2).ret
        = MMA_ERR_ALL_ID_USED := by
  simp only [MAX_AVERAGES, registerCalls, avg_register_eq]
  simp [mmaList_init, setSlot, List.range, List.range.loop]

/-- C2: when some slot is `AVG_UNUSED`, `avg_register` returns `MMA_SUCCESS`, the identifier it
writes is in range and is the smallest index whose slot was `AVG_UNUSED` before the call (so the
slot handed out was not `AVG_USED`), and after the call that slot is `AVG_USED` with average 0
and sum 0. -/
theorem avg_register_first_unused (mmaList : Registry) (avgID : Nat)
    (hex : ∃ i : Fin MAX_AVERAGES, (mmaList i).state = AVG_UNUSED) :
    (avg_register mmaList avgID).ret = MMA_SUCCESS ∧
      ∃ hlt : (avg_register mmaList avgID).avgID < MAX_AVERAGES,
        (mmaList ⟨(avg_register mmaList avgID).avgID, hlt⟩).state = AVG_UNUSED ∧
        (mmaList ⟨(avg_register mmaList avgID).avgID, hlt⟩).state ≠ AVG_USED ∧
        (∀ j : Fin MAX_AVERAGES, (mmaList j).state = AVG_UNUSED →
          (avg_register mmaList avgID).avgID ≤ j.val) ∧
        (avg_register mmaList avgID).mmaList ⟨(avg_register mmaList avgID).avgID, hlt⟩
          = { state := AVG_USED, average := 0, sum := 0 } := by
  have hex2 : ∃ n : Nat, ∃ h : n < MAX_AVERAGES, (mmaList ⟨n, h⟩).state = AVG_UNUSED := by
    obtain ⟨i, hi⟩ := hex
    exact ⟨i.val, i.isLt, hi⟩
  obtain ⟨hlt, hk⟩ := Nat.find_spec hex2
  have hloop := avg_register_loop_found mmaList avgID ⟨Nat.find hex2, hlt⟩ hk (Nat.find hex2) 0
    (by simp) (fun j _ hj hu => Nat.find_min hex2 hj ⟨j.isLt, hu⟩)
  unfold avg_register
  rw [hloop]
  refine ⟨rfl, hlt, hk, ?_, ?_, ?_⟩
  · rw [hk]; decide
  · intro j hj
    exact Nat.find_min' hex2 ⟨j.isLt, hj⟩
  · exact setSlot_same _ _ _

/-- Witness of C2: slot 0 is in use and slot 1 is free. -/
theorem avg_register_first_unused_witness :
    (∃ i : Fin MAX_AVERAGES, (sampleTable i).state = AVG_UNUSED) ∧
      (avg_register sampleTable 0).ret = MMA_SUCCESS ∧
      ∃ hlt : (avg_register sampleTable 0).avgID < MAX_AVERAGES,
        (sampleTable ⟨(avg_register sampleTable 0).avgID, hlt⟩).state = AVG_UNUSED ∧
        (sampleTable ⟨(avg_register sampleTable 0).avgID, hlt⟩).state ≠ AVG_USED ∧
        (∀ j : Fin MAX_AVERAGES, (sampleTable j).state = AVG_UNUSED →
          (avg_register sampleTable 0).avgID ≤ j.val) ∧
        (avg_register sampleTable 0).mmaList ⟨(avg_register sampleTable 0).avgID, hlt⟩
          = { state := AVG_USED, average := 0, sum := 0 } :=
  ⟨⟨slot1, rfl⟩, avg_register_first_unused sampleTable 0 ⟨slot1, rfl⟩⟩

/-- C3: the code departs from the claim. On the table left by two registrations (identifiers 0
and 1, both slots `AVG_USED`), `avg_free 0` returns `MMA_ERR_ID_UNREGISTERED` and leaves the
table as it was, slot 0 still `AVG_USED`; the next `avg_register` then returns
`MMA_ERR_ALL_ID_USED` and does not hand out identifier 0 again. -/
theorem avg_free_rejects_used_slot (avgID : Nat) :
    (registerCalls mmaList_init avgID 2).1 = [(MMA_SUCCESS, 0), (MMA_SUCCESS, 1)] ∧
      ((registerCalls mmaList_init avgID 2).2 slot0).state = AVG_USED ∧
      (avg_free (registerCalls mmaList_init avgID 2).2 0).ret = MMA_ERR_ID_UNREGISTERED ∧
      (avg_free (registerCalls mmaList_init avgID 2).2 0).mmaList
        = (registerCalls mmaList_init avgID 2).2 ∧
      (avg_register (avg_free (registerCalls mmaList_init avgID 2).2 0).mmaList avgID).ret
        = MMA_ERR_ALL_ID_USED := by
  have h0 : (0 : Nat) < MAX_AVERAGES := by decide
  simp only [registerCalls, avg_register_eq, avg_free_of_lt _ 0 h0]
  simp [mmaList_init, setSlot, slot0]

/-- C4: the code departs from the claim. `avg_moveTheAverage` never returns `MMA_SUCCESS`: on a
freshly registered slot 0 the sample 80 is accepted (the slot gets sum 80 and average 10) and
the call returns `MMA_ERR_OUT_OF_BOUND`, whose value is -4, although the identifier 0 is in
range. -/
theorem avg_moveTheAverage_never_success :
    (∀ (mmaList : Registry) (avgID newValue : Nat),
        (avg_moveTheAverage mmaList avgID newValue).ret ≠ MMA_SUCCESS) ∧
      (avg_register mmaList_init 0).ret = MMA_SUCCESS ∧
      (avg_register mmaList_init 0).avgID = 0 ∧
      (avg_moveTheAverage (avg_register mmaList_init 0).mmaList 0 80).ret
        = MMA_ERR_OUT_OF_BOUND ∧
      (avg_moveTheAverage (avg_register mmaList_init 0).mmaList 0 80).ret.toInt = -4 ∧
      (avg_moveTheAverage (avg_register mmaList_init 0).mmaList 0 80).mmaList slot0
        = { state := AVG_USED, average := 10, sum := 80 } := by
  refine ⟨?_, ?_⟩
  · intro mmaList avgID newValue
    by_cases h : avgID < MAX_AVERAGES
    · rw [avg_moveTheAverage_of_lt mmaList avgID newValue h]
      split <;> simp
    · simp [avg_moveTheAverage, h]
  · simp only [avg_register_eq]
    decide

/-- C5: on a reachable table, for an identifier in range and a sample that is not rejected as
overflow, the slot's new sum is the old sum minus the old average plus the sample, an exact
equation of naturals (the old average is at most the old sum, and nothing wraps), and the new
average is the new sum divided by `NUMBER_OF_SAMPLES`. With `NUMBER_OF_SAMPLES = 8` on a fresh
slot: the sample 80 gives average 10, then the sample 8 gives sum 78 and average 9, which is
what `avg_getAverage` then reads. -/
theorem avg_moveTheAverage_recurrence :
    (∀ (mmaList : Registry) (avgID newValue : Nat) (h : avgID < MAX_AVERAGES),
        Reachable mmaList →
        (avg_moveTheAverage mmaList avgID newValue).ret ≠ MMA_ERR_OVERFLOW →
        (mmaList ⟨avgID, h⟩).average ≤ (mmaList ⟨avgID, h⟩).sum ∧
          ((avg_moveTheAverage mmaList avgID newValue).mmaList ⟨avgID, h⟩).sum
            = (mmaList ⟨avgID, h⟩).sum - (mmaList ⟨avgID, h⟩).average + newValue ∧
          ((avg_moveTheAverage mmaList avgID newValue).mmaList ⟨avgID, h⟩).average
            = ((avg_moveTheAverage mmaList avgID newValue).mmaList ⟨avgID, h⟩).sum
                / NUMBER_OF_SAMPLES) ∧
      NUMBER_OF_SAMPLES = 8 ∧
      freshTable slot0 = { state := AVG_USED, average := 0, sum := 0 } ∧
      (table80 slot0).average = 10 ∧
      (table80_8 slot0).sum = 78 ∧
      (table80_8 slot0).average = 9 ∧
      (avg_getAverage table80_8 0 0).ret = MMA_SUCCESS ∧
      (avg_getAverage table80_8 0 0).average = 9 := by
  refine ⟨?_, ?_⟩
  · intro mmaList avgID newValue h hr hret
    rw [avg_moveTheAverage_of_lt mmaList avgID newValue h] at hret ⊢
    split at hret
    · exact absurd rfl hret
    · rename_i hno
      have hno2 : overflowTest (mmaList ⟨avgID, h⟩) newValue = false := by simpa using hno
      obtain ⟨h1, h2, _, h4, _⟩ :=
        moveSlot_exact (mmaList ⟨avgID, h⟩) newValue (reachable_slotInv mmaList hr _) hno2
      rw [if_neg hno]
      simp only [setSlot_same]
      exact ⟨h1, h2, h4⟩
  · simp only [table80_8, table80, freshTable, avg_register_eq]
    decide

/-- Witness of C5: the sample 8 given to slot 0 after the sample 80. -/
theorem avg_moveTheAverage_recurrence_witness :
    Reachable table80 ∧
      (avg_moveTheAverage table80 0 8).ret ≠ MMA_ERR_OVERFLOW ∧
      (table80 slot0).average ≤ (table80 slot0).sum ∧
      ((avg_moveTheAverage table80 0 8).mmaList slot0).sum
        = (table80 slot0).sum - (table80 slot0).average + 8 ∧
      ((avg_moveTheAverage table80 0 8).mmaList slot0).average
        = ((avg_moveTheAverage table80 0 8).mmaList slot0).sum / NUMBER_OF_SAMPLES :=
  have hr : Reachable table80 :=
    Reachable.moveTheAverage _ 0 80 (by decide) (by decide)
      (Reachable.register _ 0 (by decide) Reachable.init)
  have hret : (avg_moveTheAverage table80 0 8).ret ≠ MMA_ERR_OVERFLOW := by
    simp only [table80, freshTable, avg_register_eq]
    decide
  ⟨hr, hret, avg_moveTheAverage_recurrence.1 table80 0 8 (by decide) hr hret⟩

/-- C6: on a reachable table and for an identifier in range, `avg_moveTheAverage` returns
`MMA_ERR_OVERFLOW` exactly when sum - average + newValue exceeds 65535 over the naturals (the
average is at most the sum, so the subtraction is exact), and then the whole table is unchanged;
when sum - average + newValue is exactly 65535 the sample is not rejected and the slot's sum
becomes 65535. The test of the code, computed in `uint32_t`, decides exactly this condition. -/
theorem avg_moveTheAverage_overflow_iff (mmaList : Registry) (avgID newValue : Nat)
    (h : avgID < MAX_AVERAGES) (hr : Reachable mmaList) :
    (mmaList ⟨avgID, h⟩).average ≤ (mmaList ⟨avgID, h⟩).sum ∧
      ((avg_moveTheAverage mmaList avgID newValue).ret = MMA_ERR_OVERFLOW ↔
        65535 < (mmaList ⟨avgID, h⟩).sum - (mmaList ⟨avgID, h⟩).average + newValue) ∧
      ((avg_moveTheAverage mmaList avgID newValue).ret = MMA_ERR_OVERFLOW →
        (avg_moveTheAverage mmaList avgID newValue).mmaList = mmaList) ∧
      ((mmaList ⟨avgID, h⟩).sum - (mmaList ⟨avgID, h⟩).average + newValue = 65535 →
        (avg_moveTheAverage mmaList avgID newValue).ret ≠ MMA_ERR_OVERFLOW ∧
        ((avg_moveTheAverage mmaList avgID newValue).mmaList ⟨avgID, h⟩).sum = 65535) ∧
      (overflowTest (mmaList ⟨avgID, h⟩) newValue = true ↔
        65535 < (mmaList ⟨avgID, h⟩).sum - (mmaList ⟨avgID, h⟩).average + newValue) := by
  have hinv := reachable_slotInv mmaList hr ⟨avgID, h⟩
  have htest := overflowTest_iff (mmaList ⟨avgID, h⟩) newValue hinv
  have hle : (mmaList ⟨avgID, h⟩).average ≤ (mmaList ⟨avgID, h⟩).sum := by
    obtain ⟨havg, _⟩ := hinv
    simp only [NUMBER_OF_SAMPLES] at havg
    omega
  have hiff : overflowTest (mmaList ⟨avgID, h⟩) newValue = true ↔
      65535 < (mmaList ⟨avgID, h⟩).sum - (mmaList ⟨avgID, h⟩).average + newValue := by
    rw [htest]; omega
  rw [avg_moveTheAverage_of_lt mmaList avgID newValue h]
  refine ⟨hle, ?_, ?_, ?_, hiff⟩
  · rw [← hiff]
    split <;> simp_all
  · split
    · intro _; rfl
    · intro hc; simp at hc
  · intro heq
    have hno : ¬ overflowTest (mmaList ⟨avgID, h⟩) newValue = true := by
      rw [hiff]; omega
    have hno2 : overflowTest (mmaList ⟨avgID, h⟩) newValue = false := by simpa using hno
    obtain ⟨_, h2, _, _, _⟩ := moveSlot_exact (mmaList ⟨avgID, h⟩) newValue hinv hno2
    rw [if_neg hno]
    simp only [setSlot_same]
    exact ⟨by simp, by omega⟩

/-- Witness of C6: slot 0 holds sum 65535 and average 8191, and the sample 8191 is exactly at
the boundary. -/
theorem avg_moveTheAverage_overflow_iff_witness :
    Reachable tableMax ∧
      (tableMax slot0).sum - (tableMax slot0).average + 8191 = 65535 ∧
      (tableMax slot0).average ≤ (tableMax slot0).sum ∧
      ((avg_moveTheAverage tableMax 0 8191).ret = MMA_ERR_OVERFLOW ↔
        65535 < (tableMax slot0).sum - (tableMax slot0).average + 8191) ∧
      ((avg_moveTheAverage tableMax 0 8191).ret = MMA_ERR_OVERFLOW →
        (avg_moveTheAverage tableMax 0 8191).mmaList = tableMax) ∧
      ((tableMax slot0).sum - (tableMax slot0).average + 8191 = 65535 →
        (avg_moveTheAverage tableMax 0 8191).ret ≠ MMA_ERR_OVERFLOW ∧
        ((avg_moveTheAverage tableMax 0 8191).mmaList slot0).sum = 65535) ∧
      (overflowTest (tableMax slot0) 8191 = true ↔
        65535 < (tableMax slot0).sum - (tableMax slot0).average + 8191) :=
  have hr : Reachable tableMax :=
    Reachable.moveTheAverage _ 0 65535 (by decide) (by decide)
      (Reachable.register _ 0 (by decide) Reachable.init)
  have hb : (tableMax slot0).sum - (tableMax slot0).average + 8191 = 65535 := by
    simp only [tableMax, freshTable, avg_register_eq]
    decide
  ⟨hr, hb, avg_moveTheAverage_overflow_iff tableMax 0 8191 (by decide) hr⟩

/-- C7: round trip. For a slot that was just registered or reset (`AVG_USED`, average 0, sum 0)
and a 16-bit sample `v`, after `avg_moveTheAverage` with `v` the call of `avg_getAverage` returns
`MMA_SUCCESS` and yields `v / NUMBER_OF_SAMPLES`. -/
theorem avg_getAverage_after_first_sample (mmaList : Registry) (avgID v average : Nat)
    (h : avgID < MAX_AVERAGES) (hv : v < 65536)
    (hslot : mmaList ⟨avgID, h⟩ = { state := AVG_USED, average := 0, sum := 0 }) :
    (avg_getAverage (avg_moveTheAverage mmaList avgID v).mmaList avgID average).ret
        = MMA_SUCCESS ∧
      (avg_getAverage (avg_moveTheAverage mmaList avgID v).mmaList avgID average).average
        = v / NUMBER_OF_SAMPLES := by
  have hno : overflowTest (mmaList ⟨avgID, h⟩) v = false := by
    rw [hslot]
    simp only [overflowTest, add32, sub32, decide_eq_false_iff_not]
    omega
  have hmove : moveSlot (mmaList ⟨avgID, h⟩) v
      = { state := AVG_USED, average := v / NUMBER_OF_SAMPLES, sum := v } := by
    rw [hslot]
    simp only [moveSlot, add32, sub32, toU16, NUMBER_OF_SAMPLES, MovingAverage.mk.injEq,
      true_and]
    omega
  rw [avg_moveTheAverage_of_lt mmaList avgID v h, hno, hmove]
  simp only [Bool.false_eq_true, if_false]
  rw [avg_getAverage_of_lt _ avgID average h]
  simp [setSlot_same]

/-- Witness of C7: register on the zero-initialised table, give the sample 80, read. -/
theorem avg_getAverage_after_first_sample_witness :
    freshTable slot0 = { state := AVG_USED, average := 0, sum := 0 } ∧
      (avg_getAverage (avg_moveTheAverage freshTable 0 80).mmaList 0 0).ret = MMA_SUCCESS ∧
      (avg_getAverage (avg_moveTheAverage freshTable 0 80).mmaList 0 0).average
        = 80 / NUMBER_OF_SAMPLES :=
  have hslot : freshTable slot0 = { state := AVG_USED, average := 0, sum := 0 } := by
    simp only [freshTable, avg_register_eq]
    decide
  ⟨hslot, avg_getAverage_after_first_sample freshTable 0 80 0 (by decide) (by decide) hslot⟩

/-- C8: for an identifier in range, `avg_getAverage` on an `AVG_USED` slot returns `MMA_SUCCESS`
and yields exactly the stored average; on an `AVG_UNUSED` slot it returns
`MMA_ERR_ID_UNREGISTERED`; in both cases the table is unchanged. -/
theorem avg_getAverage_spec (mmaList : Registry) (avgID average : Nat)
    (h : avgID < MAX_AVERAGES) :
    ((mmaList ⟨avgID, h⟩).state = AVG_USED →
        (avg_getAverage mmaList avgID average).ret = MMA_SUCCESS ∧
        (avg_getAverage mmaList avgID average).average = (mmaList ⟨avgID, h⟩).average) ∧
      ((mmaList ⟨avgID, h⟩).state = AVG_UNUSED →
        (avg_getAverage mmaList avgID average).ret = MMA_ERR_ID_UNREGISTERED) ∧
      (avg_getAverage mmaList avgID average).mmaList = mmaList := by
  rw [avg_getAverage_of_lt mmaList avgID average h]
  refine ⟨?_, ?_, ?_⟩
  · intro hu; simp [hu]
  · intro hu; simp [hu]
  · split <;> rfl

/-- Witness of C8: slot 0 of `sampleTable` is in use with average 3, slot 1 is free. -/
theorem avg_getAverage_spec_witness :
    ((avg_getAverage sampleTable 0 7).ret = MMA_SUCCESS ∧
        (avg_getAverage sampleTable 0 7).average = (sampleTable slot0).average) ∧
      (avg_getAverage sampleTable 1 7).ret = MMA_ERR_ID_UNREGISTERED ∧
      (avg_getAverage sampleTable 0 7).mmaList = sampleTable :=
  ⟨(avg_getAverage_spec sampleTable 0 7 (by decide)).1 rfl,
    (avg_getAverage_spec sampleTable 1 7 (by decide)).2.1 rfl,
    (avg_getAverage_spec sampleTable 0 7 (by decide)).2.2⟩

/-- C9: for an identifier in range, `avg_reset` on an `AVG_USED` slot returns `MMA_SUCCESS` and
leaves the slot with average 0, sum 0 and state `AVG_USED`; on an `AVG_UNUSED` slot it returns
`MMA_ERR_ID_UNREGISTERED` and the table is unchanged. -/
theorem avg_reset_spec (mmaList : Registry) (avgID : Nat) (h : avgID < MAX_AVERAGES) :
    ((mmaList ⟨avgID, h⟩).state = AVG_USED →
        (avg_reset mmaList avgID).ret = MMA_SUCCESS ∧
        (avg_reset mmaList avgID).mmaList ⟨avgID, h⟩
          = { state := AVG_USED, average := 0, sum := 0 }) ∧
      ((mmaList ⟨avgID, h⟩).state = AVG_UNUSED →
        (avg_reset mmaList avgID).ret = MMA_ERR_ID_UNREGISTERED ∧
        (avg_reset mmaList avgID).mmaList = mmaList) := by
  rw [avg_reset_of_lt mmaList avgID h]
  refine ⟨?_, ?_⟩
  · intro hu; simp [hu, setSlot_same]
  · intro hu; simp [hu]

/-- Witness of C9: slot 0 of `sampleTable` is in use, slot 1 is free. -/
theorem avg_reset_spec_witness :
    ((avg_reset sampleTable 0).ret = MMA_SUCCESS ∧
        (avg_reset sampleTable 0).mmaList slot0
          = { state := AVG_USED, average := 0, sum := 0 }) ∧
      (avg_reset sampleTable 1).ret = MMA_ERR_ID_UNREGISTERED ∧
      (avg_reset sampleTable 1).mmaList = sampleTable :=
  ⟨(avg_reset_spec sampleTable 0 (by decide)).1 rfl,
    (avg_reset_spec sampleTable 1 (by decide)).2 rfl⟩

/-- C10: reset is idempotent. On an `AVG_USED` slot, two calls of `avg_reset` in a row both
return `MMA_SUCCESS`, `avg_getAverage` after each of them returns `MMA_SUCCESS` with average 0,
and the table after the second call equals the table after the first. -/
theorem avg_reset_idempotent (mmaList : Registry) (avgID average : Nat)
    (h : avgID < MAX_AVERAGES) (hu : (mmaList ⟨avgID, h⟩).state = AVG_USED) :
    (avg_reset mmaList avgID).ret = MMA_SUCCESS ∧
      (avg_getAverage (avg_reset mmaList avgID).mmaList avgID average).ret = MMA_SUCCESS ∧
      (avg_getAverage (avg_reset mmaList avgID).mmaList avgID average).average = 0 ∧
      (avg_reset (avg_reset mmaList avgID).mmaList avgID).ret = MMA_SUCCESS ∧
      (avg_getAverage (avg_reset (avg_reset mmaList avgID).mmaList avgID).mmaList
        avgID average).ret = MMA_SUCCESS ∧
      (avg_getAverage (avg_reset (avg_reset mmaList avgID).mmaList avgID).mmaList
        avgID average).average = 0 ∧
      (avg_reset (avg_reset mmaList avgID).mmaList avgID).mmaList
        = (avg_reset mmaList avgID).mmaList := by
  have h1 : avg_reset mmaList avgID =
      { ret := MMA_SUCCESS, mmaList := setSlot mmaList ⟨avgID, h⟩ ⟨AVG_USED, 0, 0⟩ } := by
    rw [avg_reset_of_lt mmaList avgID h]
    simp [hu]
  have h2 : avg_reset (setSlot mmaList ⟨avgID, h⟩ ⟨AVG_USED, 0, 0⟩) avgID =
      { ret := MMA_SUCCESS, mmaList := setSlot mmaList ⟨avgID, h⟩ ⟨AVG_USED, 0, 0⟩ } := by
    rw [avg_reset_of_lt _ avgID h]
    simp [setSlot_same, setSlot_setSlot]
  have h3 : avg_getAverage (setSlot mmaList ⟨avgID, h⟩ ⟨AVG_USED, 0, 0⟩) avgID average =
      { ret := MMA_SUCCESS, mmaList := setSlot mmaList ⟨avgID, h⟩ ⟨AVG_USED, 0, 0⟩
        average := 0 } := by
    rw [avg_getAverage_of_lt _ avgID average h]
    simp [setSlot_same]
  rw [h1]
  simp only [h2, h3, and_self]

/-- Witness of C10: slot 0 of `sampleTable` is in use. -/
theorem avg_reset_idempotent_witness :
    (sampleTable slot0).state = AVG_USED ∧
      (avg_reset sampleTable 0).ret = MMA_SUCCESS ∧
      (avg_getAverage (avg_reset sampleTable 0).mmaList 0 7).ret = MMA_SUCCESS ∧
      (avg_getAverage (avg_reset sampleTable 0).mmaList 0 7).average = 0 ∧
      (avg_reset (avg_reset sampleTable 0).mmaList 0).ret = MMA_SUCCESS ∧
      (avg_getAverage (avg_reset (avg_reset sampleTable 0).mmaList 0).mmaList 0 7).ret
        = MMA_SUCCESS ∧
      (avg_getAverage (avg_reset (avg_reset sampleTable 0).mmaList 0).mmaList 0 7).average
        = 0 ∧
      (avg_reset (avg_reset sampleTable 0).mmaList 0).mmaList
        = (avg_reset sampleTable 0).mmaList :=
  ⟨rfl, avg_reset_idempotent sampleTable 0 7 (by decide) rfl⟩

/-! ## Further lemmas -/

theorem state_ne_unused_iff (s : avgState_t) : s ≠ AVG_UNUSED ↔ s = AVG_USED := by
  cases s <;> simp

theorem state_ne_used_iff (s : avgState_t) : s ≠ AVG_USED ↔ s = AVG_UNUSED := by
  cases s <;> simp

/-- The two outcomes of `avg_register`. -/
theorem avg_register_cases (mmaList : Registry) (avgID : Nat) :
    ((∀ j : Fin MAX_AVERAGES, (mmaList j).state = AVG_USED) ∧
        avg_register mmaList avgID
          = { ret := MMA_ERR_ALL_ID_USED, mmaList := mmaList, avgID := avgID }) ∨
      ∃ k : Fin MAX_AVERAGES, (mmaList k).state = AVG_UNUSED ∧
        avg_register mmaList avgID
          = { ret := MMA_SUCCESS, mmaList := setSlot mmaList k ⟨AVG_USED, 0, 0⟩,
              avgID := k.val } := by
  by_cases hex : ∃ n : Nat, ∃ h : n < MAX_AVERAGES, (mmaList ⟨n, h⟩).state = AVG_UNUSED
  · right
    obtain ⟨hlt, hk⟩ := Nat.find_spec hex
    refine ⟨⟨Nat.find hex, hlt⟩, hk, ?_⟩
    unfold avg_register
    rw [avg_register_loop_found mmaList avgID ⟨Nat.find hex, hlt⟩ hk (Nat.find hex) 0 (by simp)
      (fun j _ hj hu => Nat.find_min hex hj ⟨j.isLt, hu⟩)]
  · left
    have hall : ∀ j : Fin MAX_AVERAGES, (mmaList j).state ≠ AVG_UNUSED :=
      fun j hu => hex ⟨j.val, j.isLt, hu⟩
    refine ⟨fun j => (state_ne_unused_iff _).1 (hall j), ?_⟩
    unfold avg_register
    rw [avg_register_loop_full mmaList avgID MAX_AVERAGES 0 (by simp) (fun j _ => hall j)]

theorem avg_free_of_not_lt (mmaList : Registry) (avgID : Nat) (h : ¬ avgID < MAX_AVERAGES) :
    avg_free mmaList avgID = { ret := MMA_ERR_OUT_OF_BOUND, mmaList := mmaList } := by
  simp only [avg_free, h, dite_false]

theorem avg_moveTheAverage_of_not_lt (mmaList : Registry) (avgID newValue : Nat)
    (h : ¬ avgID < MAX_AVERAGES) :
    avg_moveTheAverage mmaList avgID newValue
      = { ret := MMA_ERR_OUT_OF_BOUND, mmaList := mmaList } := by
  simp only [avg_moveTheAverage, h, dite_false]

theorem avg_getAverage_of_not_lt (mmaList : Registry) (avgID average : Nat)
    (h : ¬ avgID < MAX_AVERAGES) :
    avg_getAverage mmaList avgID average
      = { ret := MMA_ERR_OUT_OF_BOUND, mmaList := mmaList, average := average } := by
  simp only [avg_getAverage, h, dite_false]

theorem avg_reset_of_not_lt (mmaList : Registry) (avgID : Nat) (h : ¬ avgID < MAX_AVERAGES) :
    avg_reset mmaList avgID = { ret := MMA_ERR_OUT_OF_BOUND, mmaList := mmaList } := by
  simp only [avg_reset, h, dite_false]

/-! ## Claims, continued -/

/-- C11: for every table and every identifier that is at least `MAX_AVERAGES`, each of
`avg_free`, `avg_moveTheAverage`, `avg_getAverage` and `avg_reset` returns
`MMA_ERR_OUT_OF_BOUND` and leaves the table (and the output cell of `avg_getAverage`) as it
was; the table is not read, so the result is the same for every table. -/
theorem out_of_range_id_rejected (mmaList : Registry) (avgID newValue average : Nat)
    (h : MAX_AVERAGES ≤ avgID) :
    avg_free mmaList avgID = { ret := MMA_ERR_OUT_OF_BOUND, mmaList := mmaList } ∧
      avg_moveTheAverage mmaList avgID newValue
        = { ret := MMA_ERR_OUT_OF_BOUND, mmaList := mmaList } ∧
      avg_getAverage mmaList avgID average
        = { ret := MMA_ERR_OUT_OF_BOUND, mmaList := mmaList, average := average } ∧
      avg_reset mmaList avgID = { ret := MMA_ERR_OUT_OF_BOUND, mmaList := mmaList } ∧
      (∀ other : Registry,
        (avg_free other avgID).ret = (avg_free mmaList avgID).ret ∧
        (avg_moveTheAverage other avgID newValue).ret
          = (avg_moveTheAverage mmaList avgID newValue).ret ∧
        (avg_getAverage other avgID average).ret = (avg_getAverage mmaList avgID average).ret ∧
        (avg_reset other avgID).ret = (avg_reset mmaList avgID).ret) := by
  have hn : ¬ avgID < MAX_AVERAGES := by omega
  refine ⟨avg_free_of_not_lt _ _ hn, avg_moveTheAverage_of_not_lt _ _ _ hn,
    avg_getAverage_of_not_lt _ _ _ hn, avg_reset_of_not_lt _ _ hn, ?_⟩
  intro other
  simp only [avg_free_of_not_lt _ _ hn, avg_moveTheAverage_of_not_lt _ _ _ hn,
    avg_getAverage_of_not_lt _ _ _ hn, avg_reset_of_not_lt _ _ hn, and_self]

/-- Witness of C11: the largest `uint8_t` identifier, 255, on `sampleTable`. -/
theorem out_of_range_id_rejected_witness :
    MAX_AVERAGES ≤ 255 ∧
      avg_free sampleTable 255 = { ret := MMA_ERR_OUT_OF_BOUND, mmaList := sampleTable } ∧
      avg_moveTheAverage sampleTable 255 80
        = { ret := MMA_ERR_OUT_OF_BOUND, mmaList := sampleTable } ∧
      avg_getAverage sampleTable 255 7
        = { ret := MMA_ERR_OUT_OF_BOUND, mmaList := sampleTable, average := 7 } ∧
      avg_reset sampleTable 255 = { ret := MMA_ERR_OUT_OF_BOUND, mmaList := sampleTable } ∧
      (∀ other : Registry,
        (avg_free other 255).ret = (avg_free sampleTable 255).ret ∧
        (avg_moveTheAverage other 255 80).ret = (avg_moveTheAverage sampleTable 255 80).ret ∧
        (avg_getAverage other 255 7).ret = (avg_getAverage sampleTable 255 7).ret ∧
        (avg_reset other 255).ret = (avg_reset sampleTable 255).ret) :=
  ⟨by decide, out_of_range_id_rejected sampleTable 255 80 7 (by decide)⟩

/-- C12: the code departs from the claim. On a freshly registered slot 0 the call
`avg_moveTheAverage` with sample 80 returns `MMA_ERR_OUT_OF_BOUND`, a result other than
`MMA_SUCCESS`, and yet the table after the call differs from the table before it (slot 0 now
holds sum 80 and average 10). `avg_free` and `avg_reset` do leave the table unchanged whenever
they return something other than `MMA_SUCCESS`, and so does `avg_moveTheAverage` when it
returns `MMA_ERR_OVERFLOW` or is given an identifier out of range. -/
theorem avg_moveTheAverage_error_not_atomic :
    (avg_moveTheAverage freshTable 0 80).ret ≠ MMA_SUCCESS ∧
      (avg_moveTheAverage freshTable 0 80).ret = MMA_ERR_OUT_OF_BOUND ∧
      (avg_moveTheAverage freshTable 0 80).mmaList ≠ freshTable ∧
      freshTable slot0 = { state := AVG_USED, average := 0, sum := 0 } ∧
      (avg_moveTheAverage freshTable 0 80).mmaList slot0
        = { state := AVG_USED, average := 10, sum := 80 } ∧
      (∀ (mmaList : Registry) (avgID : Nat),
        (avg_free mmaList avgID).ret = MMA_SUCCESS ∨ (avg_free mmaList avgID).mmaList = mmaList) ∧
      (∀ (mmaList : Registry) (avgID : Nat),
        (avg_reset mmaList avgID).ret = MMA_SUCCESS ∨
          (avg_reset mmaList avgID).mmaList = mmaList) ∧
      (∀ (mmaList : Registry) (avgID newValue : Nat),
        (avg_moveTheAverage mmaList avgID newValue).ret = MMA_ERR_OUT_OF_BOUND ∨
          (avg_moveTheAverage mmaList avgID newValue).mmaList = mmaList) ∧
      (∀ (mmaList : Registry) (avgID newValue : Nat),
        avgID < MAX_AVERAGES ∨ (avg_moveTheAverage mmaList avgID newValue).mmaList = mmaList) := by
  have hfresh : freshTable slot0 = { state := AVG_USED, average := 0, sum := 0 } := by
    simp only [freshTable, avg_register_eq]
    decide
  have hmoved : (avg_moveTheAverage freshTable 0 80).mmaList slot0
      = { state := AVG_USED, average := 10, sum := 80 } := by
    simp only [freshTable, avg_register_eq]
    decide
  have hret : (avg_moveTheAverage freshTable 0 80).ret = MMA_ERR_OUT_OF_BOUND := by
    simp only [freshTable, avg_register_eq]
    decide
  refine ⟨by rw [hret]; decide, hret, ?_, hfresh, hmoved, ?_, ?_, ?_, ?_⟩
  · intro heq
    have h1 := congrFun heq slot0
    rw [hmoved, hfresh] at h1
    exact absurd h1 (by decide)
  · intro mmaList avgID
    by_cases h : avgID < MAX_AVERAGES
    · rw [avg_free_of_lt mmaList avgID h]
      split
      · right; rfl
      · left; rfl
    · right; rw [avg_free_of_not_lt mmaList avgID h]
  · intro mmaList avgID
    by_cases h : avgID < MAX_AVERAGES
    · rw [avg_reset_of_lt mmaList avgID h]
      split
      · right; rfl
      · left; rfl
    · right; rw [avg_reset_of_not_lt mmaList avgID h]
  · intro mmaList avgID newValue
    by_cases h : avgID < MAX_AVERAGES
    · rw [avg_moveTheAverage_of_lt mmaList avgID newValue h]
      split
      · right; rfl
      · left; rfl
    · left; rw [avg_moveTheAverage_of_not_lt mmaList avgID newValue h]
  · intro mmaList avgID newValue
    by_cases h : avgID < MAX_AVERAGES
    · left; exact h
    · right; rw [avg_moveTheAverage_of_not_lt mmaList avgID newValue h]

/-- C13: `avg_register` returns `MMA_ERR_ALL_ID_USED` exactly when every slot is `AVG_USED`, and
then the table (and the output cell) is unchanged; on `MMA_SUCCESS` the identifier written is in
range and its slot is the one and only slot that differs from before; there is no third
result. -/
theorem avg_register_exhausted_iff (mmaList : Registry) (avgID : Nat) :
    ((avg_register mmaList avgID).ret = MMA_ERR_ALL_ID_USED ↔
        ∀ j : Fin MAX_AVERAGES, (mmaList j).state = AVG_USED) ∧
      ((avg_register mmaList avgID).ret = MMA_ERR_ALL_ID_USED →
        (avg_register mmaList avgID).mmaList = mmaList ∧
        (avg_register mmaList avgID).avgID = avgID) ∧
      ((avg_register mmaList avgID).ret = MMA_SUCCESS →
        ∃ h : (avg_register mmaList avgID).avgID < MAX_AVERAGES,
          ∀ j : Fin MAX_AVERAGES,
            (avg_register mmaList avgID).mmaList j ≠ mmaList j ↔
              j = ⟨(avg_register mmaList avgID).avgID, h⟩) ∧
      ((avg_register mmaList avgID).ret = MMA_SUCCESS ∨
        (avg_register mmaList avgID).ret = MMA_ERR_ALL_ID_USED) := by
  rcases avg_register_cases mmaList avgID with ⟨hall, heq⟩ | ⟨k, hk, heq⟩
  · rw [heq]
    refine ⟨⟨fun _ => hall, fun _ => rfl⟩, fun _ => ⟨rfl, rfl⟩, ?_, Or.inr rfl⟩
    intro hc
    exact absurd hc (by simp)
  · rw [heq]
    refine ⟨⟨fun hc => absurd hc (by simp), ?_⟩, fun hc => absurd hc (by simp), ?_, Or.inl rfl⟩
    · intro hall
      have := hall k
      rw [hk] at this
      exact absurd this (by decide)
    · intro _
      refine ⟨k.isLt, ?_⟩
      intro j
      constructor
      · intro hne
        by_contra hjk
        exact hne (setSlot_ne mmaList k j _ hjk)
      · intro hjk
        have hjk2 : j = k := hjk
        subst hjk2
        show setSlot mmaList j ⟨AVG_USED, 0, 0⟩ j ≠ mmaList j
        rw [setSlot_same]
        intro hc
        have hs := congrArg MovingAverage.state hc
        rw [hk] at hs
        exact absurd hs (by decide)

/-- Witness of C13: `sampleTable` has a free slot, `fullTable` has none. -/
theorem avg_register_exhausted_iff_witness :
    (avg_register sampleTable 0).ret = MMA_SUCCESS ∧
      (∃ h : (avg_register sampleTable 0).avgID < MAX_AVERAGES,
        ∀ j : Fin MAX_AVERAGES,
          (avg_register sampleTable 0).mmaList j ≠ sampleTable j ↔
            j = ⟨(avg_register sampleTable 0).avgID, h⟩) ∧
      (∀ j : Fin MAX_AVERAGES, (fullTable j).state = AVG_USED) ∧
      (avg_register fullTable 0).ret = MMA_ERR_ALL_ID_USED ∧
      (avg_register fullTable 0).mmaList = fullTable ∧
      (avg_register fullTable 0).avgID = 0 :=
  have hs : (avg_register sampleTable 0).ret = MMA_SUCCESS := by
    simp only [avg_register_eq]
    decide
  have hf : ∀ j : Fin MAX_AVERAGES, (fullTable j).state = AVG_USED := by decide
  have hr : (avg_register fullTable 0).ret = MMA_ERR_ALL_ID_USED :=
    (avg_register_exhausted_iff fullTable 0).1.2 hf
  ⟨hs, (avg_register_exhausted_iff sampleTable 0).2.2.1 hs, hf, hr,
    (avg_register_exhausted_iff fullTable 0).2.1 hr⟩

/-- C14: in every reachable table every slot has average = sum / `NUMBER_OF_SAMPLES` (truncating
division), and that quotient is below 65536, so its conversion to the 16-bit field `average`
loses nothing. -/
theorem reachable_average_eq_sum_div (mmaList : Registry) (hr : Reachable mmaList)
    (j : Fin MAX_AVERAGES) :
    (mmaList j).average = (mmaList j).sum / NUMBER_OF_SAMPLES ∧
      (mmaList j).sum / NUMBER_OF_SAMPLES < 65536 ∧
      toU16 ((mmaList j).sum / NUMBER_OF_SAMPLES) = (mmaList j).sum / NUMBER_OF_SAMPLES := by
  obtain ⟨havg, hsum⟩ := reachable_slotInv mmaList hr j
  refine ⟨havg, ?_, ?_⟩
  · simp only [NUMBER_OF_SAMPLES]
    omega
  · simp only [toU16, NUMBER_OF_SAMPLES]
    omega

/-- Witness of C14: the table after registration and the samples 80 and 8. -/
theorem reachable_average_eq_sum_div_witness :
    Reachable table80_8 ∧
      (table80_8 slot0).average = (table80_8 slot0).sum / NUMBER_OF_SAMPLES ∧
      (table80_8 slot0).sum / NUMBER_OF_SAMPLES < 65536 ∧
      toU16 ((table80_8 slot0).sum / NUMBER_OF_SAMPLES)
        = (table80_8 slot0).sum / NUMBER_OF_SAMPLES :=
  have hr : Reachable table80_8 :=
    Reachable.moveTheAverage _ 0 8 (by decide) (by decide)
      (Reachable.moveTheAverage _ 0 80 (by decide) (by decide)
        (Reachable.register _ 0 (by decide) Reachable.init))
  ⟨hr, reachable_average_eq_sum_div table80_8 hr slot0⟩

/-- C15: in every reachable table every slot has average ≤ sum ≤ 65535, so the `uint32_t`
subtraction `sum -= average` gives exactly sum - average, and for every sample that passes the
overflow test the `uint32_t` addition `sum += newValue` gives exactly sum - average + newValue,
which is at most 65535: neither operation wraps around. -/
theorem reachable_sum_bounds (mmaList : Registry) (hr : Reachable mmaList)
    (j : Fin MAX_AVERAGES) :
    (mmaList j).average ≤ (mmaList j).sum ∧
      (mmaList j).sum ≤ 65535 ∧
      sub32 (mmaList j).sum (mmaList j).average = (mmaList j).sum - (mmaList j).average ∧
      (∀ newValue : Nat, overflowTest (mmaList j) newValue = false →
        add32 (sub32 (mmaList j).sum (mmaList j).average) newValue
          = (mmaList j).sum - (mmaList j).average + newValue ∧
        (mmaList j).sum - (mmaList j).average + newValue ≤ 65535) := by
  have hinv := reachable_slotInv mmaList hr j
  obtain ⟨havg, hsum⟩ := hinv
  simp only [NUMBER_OF_SAMPLES] at havg
  refine ⟨by omega, hsum, ?_, ?_⟩
  · simp only [sub32]
    omega
  · intro newValue hno
    have hle : ¬ 65535 + (mmaList j).average < (mmaList j).sum + newValue := by
      rw [← overflowTest_iff (mmaList j) newValue ⟨by simpa [NUMBER_OF_SAMPLES] using havg, hsum⟩,
        hno]
      simp
    simp only [add32, sub32]
    omega

/-- Witness of C15: the table whose slot 0 holds the largest sum, 65535. -/
theorem reachable_sum_bounds_witness :
    Reachable tableMax ∧
      (tableMax slot0).average ≤ (tableMax slot0).sum ∧
      (tableMax slot0).sum ≤ 65535 ∧
      sub32 (tableMax slot0).sum (tableMax slot0).average
        = (tableMax slot0).sum - (tableMax slot0).average ∧
      (∀ newValue : Nat, overflowTest (tableMax slot0) newValue = false →
        add32 (sub32 (tableMax slot0).sum (tableMax slot0).average) newValue
          = (tableMax slot0).sum - (tableMax slot0).average + newValue ∧
        (tableMax slot0).sum - (tableMax slot0).average + newValue ≤ 65535) :=
  have hr : Reachable tableMax :=
    Reachable.moveTheAverage _ 0 65535 (by decide) (by decide)
      (Reachable.register _ 0 (by decide) Reachable.init)
  ⟨hr, reachable_sum_bounds tableMax hr slot0⟩

/-- The state flags of all slots are the same after `avg_moveTheAverage` as before. -/
theorem avg_moveTheAverage_state (mmaList : Registry) (avgID newValue : Nat)
    (j : Fin MAX_AVERAGES) :
    ((avg_moveTheAverage mmaList avgID newValue).mmaList j).state = (mmaList j).state := by
  by_cases h : avgID < MAX_AVERAGES
  · rw [avg_moveTheAverage_of_lt mmaList avgID newValue h]
    split
    · rfl
    · show (setSlot mmaList ⟨avgID, h⟩ (moveSlot (mmaList ⟨avgID, h⟩) newValue) j).state
        = (mmaList j).state
      unfold setSlot
      split
      · rename_i hj
        rw [hj]
        rfl
      · rfl
  · rw [avg_moveTheAverage_of_not_lt mmaList avgID newValue h]

/-- C16: `avg_moveTheAverage` changes no state flag and does not test for `AVG_USED`. For every
table, the state of every slot is the same after the call as before (an `AVG_UNUSED` slot stays
`AVG_UNUSED`, an `AVG_USED` slot stays `AVG_USED`); and for an identifier in range whose sample
passes the overflow test, whatever the state of the slot, the slot's sum and average are
rewritten by the recurrence of the code (sum - average + newValue in `uint32_t`, then the
quotient by `NUMBER_OF_SAMPLES` in `uint16_t`), which on a slot with average = sum /
`NUMBER_OF_SAMPLES` and sum ≤ 65535 is the exact recurrence over the naturals. -/
theorem avg_moveTheAverage_keeps_state (mmaList : Registry) (avgID newValue : Nat) :
    (∀ j : Fin MAX_AVERAGES,
        ((avg_moveTheAverage mmaList avgID newValue).mmaList j).state = (mmaList j).state) ∧
      (∀ j : Fin MAX_AVERAGES, (mmaList j).state = AVG_UNUSED →
        ((avg_moveTheAverage mmaList avgID newValue).mmaList j).state = AVG_UNUSED) ∧
      (∀ j : Fin MAX_AVERAGES, (mmaList j).state = AVG_USED →
        ((avg_moveTheAverage mmaList avgID newValue).mmaList j).state = AVG_USED) ∧
      (∀ h : avgID < MAX_AVERAGES, overflowTest (mmaList ⟨avgID, h⟩) newValue = false →
        ((avg_moveTheAverage mmaList avgID newValue).mmaList ⟨avgID, h⟩).sum
          = add32 (sub32 (mmaList ⟨avgID, h⟩).sum (mmaList ⟨avgID, h⟩).average) newValue ∧
        ((avg_moveTheAverage mmaList avgID newValue).mmaList ⟨avgID, h⟩).average
          = toU16 (((avg_moveTheAverage mmaList avgID newValue).mmaList ⟨avgID, h⟩).sum
              / NUMBER_OF_SAMPLES) ∧
        (SlotInv (mmaList ⟨avgID, h⟩) →
          ((avg_moveTheAverage mmaList avgID newValue).mmaList ⟨avgID, h⟩).sum
            = (mmaList ⟨avgID, h⟩).sum - (mmaList ⟨avgID, h⟩).average + newValue ∧
          ((avg_moveTheAverage mmaList avgID newValue).mmaList ⟨avgID, h⟩).average
            = ((avg_moveTheAverage mmaList avgID newValue).mmaList ⟨avgID, h⟩).sum
                / NUMBER_OF_SAMPLES)) := by
  refine ⟨avg_moveTheAverage_state mmaList avgID newValue, ?_, ?_, ?_⟩
  · intro j hj
    rw [avg_moveTheAverage_state mmaList avgID newValue j, hj]
  · intro j hj
    rw [avg_moveTheAverage_state mmaList avgID newValue j, hj]
  · intro h hno
    have hnew : (avg_moveTheAverage mmaList avgID newValue).mmaList ⟨avgID, h⟩
        = moveSlot (mmaList ⟨avgID, h⟩) newValue := by
      rw [avg_moveTheAverage_of_lt mmaList avgID newValue h, hno]
      simp only [Bool.false_eq_true, if_false, setSlot_same]
    rw [hnew]
    refine ⟨rfl, rfl, ?_⟩
    intro hinv
    obtain ⟨_, h2, _, h4, _⟩ := moveSlot_exact (mmaList ⟨avgID, h⟩) newValue hinv hno
    exact ⟨h2, h4⟩

/-- Witness of C16: the sample 80 given to slot 0 of the zero-initialised table, where slot 0 is
`AVG_UNUSED`: the slot gets sum 80 and average 10 and is still `AVG_UNUSED`. -/
theorem avg_moveTheAverage_keeps_state_witness :
    (mmaList_init slot0).state = AVG_UNUSED ∧
      overflowTest (mmaList_init slot0) 80 = false ∧
      SlotInv (mmaList_init slot0) ∧
      ((avg_moveTheAverage mmaList_init 0 80).mmaList slot0).state = AVG_UNUSED ∧
      ((avg_moveTheAverage mmaList_init 0 80).mmaList slot0).sum
        = add32 (sub32 (mmaList_init slot0).sum (mmaList_init slot0).average) 80 ∧
      ((avg_moveTheAverage mmaList_init 0 80).mmaList slot0).average
        = toU16 (((avg_moveTheAverage mmaList_init 0 80).mmaList slot0).sum
            / NUMBER_OF_SAMPLES) ∧
      ((avg_moveTheAverage mmaList_init 0 80).mmaList slot0).sum
        = (mmaList_init slot0).sum - (mmaList_init slot0).average + 80 ∧
      ((avg_moveTheAverage mmaList_init 0 80).mmaList slot0).average
        = ((avg_moveTheAverage mmaList_init 0 80).mmaList slot0).sum / NUMBER_OF_SAMPLES ∧
      unregistered80 slot0 = { state := AVG_UNUSED, average := 10, sum := 80 } :=
  have hinv : SlotInv (mmaList_init slot0) := slotInv_zero _
  have hno : overflowTest (mmaList_init slot0) 80 = false := by decide
  have hk := (avg_moveTheAverage_keeps_state mmaList_init 0 80).2.2.2 (by decide) hno
  ⟨rfl, hno, hinv,
    (avg_moveTheAverage_keeps_state mmaList_init 0 80).2.1 slot0 rfl,
    hk.1, hk.2.1, (hk.2.2 hinv).1, (hk.2.2 hinv).2, by decide⟩

/-- C17: slot independence. For every table, every identifier `i` and every slot index `j`
other than `i`, slot `j` (state, average and sum) is the same before and after `avg_free`,
`avg_moveTheAverage`, `avg_getAverage` and `avg_reset` called with `i`, whatever they return. -/
theorem other_slots_untouched (mmaList : Registry) (i v average : Nat)
    (j : Fin MAX_AVERAGES) (hj : j.val ≠ i) :
    (avg_free mmaList i).mmaList j = mmaList j ∧
      (avg_moveTheAverage mmaList i v).mmaList j = mmaList j ∧
      (avg_getAverage mmaList i average).mmaList j = mmaList j ∧
      (avg_reset mmaList i).mmaList j = mmaList j := by
  by_cases h : i < MAX_AVERAGES
  · have hne : j ≠ ⟨i, h⟩ := fun hc => hj (congrArg Fin.val hc)
    rw [avg_free_of_lt mmaList i h, avg_moveTheAverage_of_lt mmaList i v h,
      avg_getAverage_of_lt mmaList i average h, avg_reset_of_lt mmaList i h]
    refine ⟨?_, ?_, ?_, ?_⟩
    · split
      · rfl
      · exact setSlot_ne mmaList _ j _ hne
    · split
      · rfl
      · exact setSlot_ne mmaList _ j _ hne
    · split <;> rfl
    · split
      · rfl
      · exact setSlot_ne mmaList _ j _ hne
  · rw [avg_free_of_not_lt mmaList i h, avg_moveTheAverage_of_not_lt mmaList i v h,
      avg_getAverage_of_not_lt mmaList i average h, avg_reset_of_not_lt mmaList i h]
    exact ⟨rfl, rfl, rfl, rfl⟩

/-- Witness of C17: calls for identifier 0 on `sampleTable` leave slot 1 as it was. -/
theorem other_slots_untouched_witness :
    slot1.val ≠ 0 ∧
      (avg_free sampleTable 0).mmaList slot1 = sampleTable slot1 ∧
      (avg_moveTheAverage sampleTable 0 80).mmaList slot1 = sampleTable slot1 ∧
      (avg_getAverage sampleTable 0 7).mmaList slot1 = sampleTable slot1 ∧
      (avg_reset sampleTable 0).mmaList slot1 = sampleTable slot1 :=
  ⟨by decide, other_slots_untouched sampleTable 0 80 7 slot1 (by decide)⟩

/-- The state flags of all slots are the same after `avg_free` as before. -/
theorem avg_free_state (mmaList : Registry) (avgID : Nat) (j : Fin MAX_AVERAGES) :
    ((avg_free mmaList avgID).mmaList j).state = (mmaList j).state := by
  by_cases h : avgID < MAX_AVERAGES
  · rw [avg_free_of_lt mmaList avgID h]
    split
    · rfl
    · rename_i hu
      have hu2 : (mmaList ⟨avgID, h⟩).state = AVG_UNUSED := by simpa using hu
      show (setSlot mmaList ⟨avgID, h⟩ ⟨AVG_UNUSED, 0, 0⟩ j).state = (mmaList j).state
      unfold setSlot
      split
      · rename_i hj
        rw [hj, hu2]
      · rfl
  · rw [avg_free_of_not_lt mmaList avgID h]

/-- The state flags of all slots are the same after `avg_reset` as before. -/
theorem avg_reset_state (mmaList : Registry) (avgID : Nat) (j : Fin MAX_AVERAGES) :
    ((avg_reset mmaList avgID).mmaList j).state = (mmaList j).state := by
  by_cases h : avgID < MAX_AVERAGES
  · rw [avg_reset_of_lt mmaList avgID h]
    split
    · rfl
    · rename_i hu
      have hu2 : (mmaList ⟨avgID, h⟩).state = AVG_USED := by simpa using hu
      show (setSlot mmaList ⟨avgID, h⟩ ⟨AVG_USED, 0, 0⟩ j).state = (mmaList j).state
      unfold setSlot
      split
      · rename_i hj
        rw [hj, hu2]
      · rfl
  · rw [avg_reset_of_not_lt mmaList avgID h]

/-- The table is the same after `avg_getAverage` as before. -/
theorem avg_getAverage_mmaList (mmaList : Registry) (avgID average : Nat) :
    (avg_getAverage mmaList avgID average).mmaList = mmaList := by
  by_cases h : avgID < MAX_AVERAGES
  · rw [avg_getAverage_of_lt mmaList avgID average h]
    split <;> rfl
  · rw [avg_getAverage_of_not_lt mmaList avgID average h]

theorem usedCount_le (mmaList : Registry) : usedCount mmaList ≤ MAX_AVERAGES := by
  have h := Finset.card_le_univ
    (Finset.univ.filter (fun j : Fin MAX_AVERAGES => (mmaList j).state = AVG_USED))
  rw [Fintype.card_fin] at h
  exact h

theorem all_used_of_usedCount (mmaList : Registry) (h : MAX_AVERAGES ≤ usedCount mmaList) :
    ∀ j : Fin MAX_AVERAGES, (mmaList j).state = AVG_USED := by
  intro j
  have hle := usedCount_le mmaList
  have hcard : (Finset.univ.filter
      (fun j : Fin MAX_AVERAGES => (mmaList j).state = AVG_USED)).card
        = Fintype.card (Fin MAX_AVERAGES) := by
    rw [Fintype.card_fin]
    unfold usedCount at h hle
    omega
  have huniv := (Finset.card_eq_iff_eq_univ _).1 hcard
  have hj : j ∈ Finset.univ.filter
      (fun j : Fin MAX_AVERAGES => (mmaList j).state = AVG_USED) := by
    rw [huniv]
    exact Finset.mem_univ j
  exact (Finset.mem_filter.1 hj).2

theorem usedCount_congr (a b : Registry) (h : ∀ j, (a j).state = (b j).state) :
    usedCount a = usedCount b := by
  unfold usedCount
  congr 1
  ext j
  simp only [Finset.mem_filter, Finset.mem_univ, true_and, h j]

theorem usedCount_setSlot_used (mmaList : Registry) (k : Fin MAX_AVERAGES)
    (hk : (mmaList k).state = AVG_UNUSED) :
    usedCount (setSlot mmaList k ⟨AVG_USED, 0, 0⟩) = usedCount mmaList + 1 := by
  unfold usedCount
  have hset : Finset.univ.filter
      (fun j : Fin MAX_AVERAGES => (setSlot mmaList k ⟨AVG_USED, 0, 0⟩ j).state = AVG_USED)
      = insert k (Finset.univ.filter
          (fun j : Fin MAX_AVERAGES => (mmaList j).state = AVG_USED)) := by
    ext j
    simp only [Finset.mem_filter, Finset.mem_univ, true_and, Finset.mem_insert, setSlot]
    by_cases hjk : j = k
    · simp [hjk]
    · simp [hjk]
  rw [hset, Finset.card_insert_of_not_mem]
  intro hmem
  have := (Finset.mem_filter.1 hmem).2
  rw [hk] at this
  exact absurd this (by decide)

/-- A call adds one to the number of used slots when it is a successful registration, and
leaves that number as it is otherwise. -/
theorem usedCount_after (mmaList : Registry) (c : Call) :
    usedCount (c.after mmaList) = usedCount mmaList + successfulRegistrations mmaList [c] := by
  cases c with
  | register a =>
    simp only [Call.after, successfulRegistrations, Nat.add_zero]
    rcases avg_register_cases mmaList a with ⟨_, heq⟩ | ⟨k, hk, heq⟩
    · rw [heq]
      simp
    · rw [heq]
      simp only [if_true]
      exact usedCount_setSlot_used mmaList k hk
  | free a =>
    simp only [Call.after, successfulRegistrations, Nat.add_zero]
    exact usedCount_congr _ _ (avg_free_state mmaList a)
  | moveTheAverage a v =>
    simp only [Call.after, successfulRegistrations, Nat.add_zero]
    exact usedCount_congr _ _ (avg_moveTheAverage_state mmaList a v)
  | getAverage a v =>
    simp only [Call.after, successfulRegistrations, Nat.add_zero]
    rw [avg_getAverage_mmaList]
  | reset a =>
    simp only [Call.after, successfulRegistrations, Nat.add_zero]
    exact usedCount_congr _ _ (avg_reset_state mmaList a)

theorem usedCount_runCalls (mmaList : Registry) (cs : List Call) :
    usedCount (runCalls mmaList cs) = usedCount mmaList + successfulRegistrations mmaList cs := by
  induction cs generalizing mmaList with
  | nil => simp [runCalls, successfulRegistrations]
  | cons c cs ih =>
    have h1 := usedCount_after mmaList c
    simp only [successfulRegistrations, Nat.add_zero] at h1
    simp only [runCalls, successfulRegistrations]
    rw [ih (c.after mmaList), h1]
    omega

/-- A slot that is `AVG_USED` before a call is `AVG_USED` after it. -/
theorem used_after (mmaList : Registry) (c : Call) (j : Fin MAX_AVERAGES)
    (hj : (mmaList j).state = AVG_USED) : ((c.after mmaList) j).state = AVG_USED := by
  cases c with
  | register a =>
    simp only [Call.after]
    rcases avg_register_cases mmaList a with ⟨_, heq⟩ | ⟨k, _, heq⟩
    · rw [heq]; exact hj
    · rw [heq]
      show (setSlot mmaList k ⟨AVG_USED, 0, 0⟩ j).state = AVG_USED
      unfold setSlot
      split
      · rfl
      · exact hj
  | free a => simp only [Call.after]; rw [avg_free_state, hj]
  | moveTheAverage a v => simp only [Call.after]; rw [avg_moveTheAverage_state, hj]
  | getAverage a v => simp only [Call.after]; rw [avg_getAverage_mmaList, hj]
  | reset a => simp only [Call.after]; rw [avg_reset_state, hj]

theorem all_used_runCalls (mmaList : Registry) (cs : List Call)
    (h : ∀ j : Fin MAX_AVERAGES, (mmaList j).state = AVG_USED) :
    ∀ j : Fin MAX_AVERAGES, ((runCalls mmaList cs) j).state = AVG_USED := by
  induction cs generalizing mmaList with
  | nil => exact h
  | cons c cs ih =>
    simp only [runCalls]
    exact ih (c.after mmaList) (fun j => used_after mmaList c j (h j))

/-- C18: no call turns an `AVG_USED` slot back into `AVG_UNUSED`. For every table and every call
of one of the five functions with any arguments, each slot that is `AVG_USED` before the call is
`AVG_USED` after it; `avg_free` on an `AVG_USED` slot returns `MMA_ERR_ID_UNREGISTERED` and
changes nothing, and it returns `MMA_SUCCESS` only for an identifier in range whose slot is
already `AVG_UNUSED`. Consequently, once `MAX_AVERAGES` registrations have succeeded in a
sequence of calls, `avg_register` returns `MMA_ERR_ALL_ID_USED` after every further sequence of
calls. -/
theorem used_slot_stays_used :
    (∀ (mmaList : Registry) (c : Call) (j : Fin MAX_AVERAGES),
        (mmaList j).state = AVG_USED → ((c.after mmaList) j).state = AVG_USED) ∧
      (∀ (mmaList : Registry) (avgID : Nat) (h : avgID < MAX_AVERAGES),
        (mmaList ⟨avgID, h⟩).state = AVG_USED →
        avg_free mmaList avgID = { ret := MMA_ERR_ID_UNREGISTERED, mmaList := mmaList }) ∧
      (∀ (mmaList : Registry) (avgID : Nat),
        (avg_free mmaList avgID).ret = MMA_SUCCESS →
        ∃ h : avgID < MAX_AVERAGES, (mmaList ⟨avgID, h⟩).state = AVG_UNUSED) ∧
      (∀ (mmaList : Registry) (cs later : List Call) (avgID : Nat),
        MAX_AVERAGES ≤ successfulRegistrations mmaList cs →
        (avg_register (runCalls (runCalls mmaList cs) later) avgID).ret
          = MMA_ERR_ALL_ID_USED) := by
  refine ⟨used_after, ?_, ?_, ?_⟩
  · intro mmaList avgID h hu
    rw [avg_free_of_lt mmaList avgID h]
    simp [hu]
  · intro mmaList avgID hret
    by_cases h : avgID < MAX_AVERAGES
    · refine ⟨h, ?_⟩
      rw [avg_free_of_lt mmaList avgID h] at hret
      split at hret
      · exact absurd hret (by simp)
      · rename_i hu
        simpa using hu
    · rw [avg_free_of_not_lt mmaList avgID h] at hret
      exact absurd hret (by simp)
  · intro mmaList cs later avgID hcount
    have hc := usedCount_runCalls mmaList cs
    have hall := all_used_of_usedCount (runCalls mmaList cs) (by omega)
    have hall2 := all_used_runCalls (runCalls mmaList cs) later hall
    rcases avg_register_cases (runCalls (runCalls mmaList cs) later) avgID with
      ⟨_, heq⟩ | ⟨k, hk, _⟩
    · rw [heq]
    · rw [hall2 k] at hk
      exact absurd hk (by decide)

/-- Witness of C18: after two successful registrations, and further calls of `avg_free` for both
identifiers, `avg_register` returns `MMA_ERR_ALL_ID_USED`; `avg_free` rejects the used slot 0 of
`fullTable`, which stays `AVG_USED`. -/
theorem used_slot_stays_used_witness :
    MAX_AVERAGES ≤ successfulRegistrations mmaList_init twoRegistrations ∧
      (avg_register (runCalls (runCalls mmaList_init twoRegistrations) releaseAttempts) 0).ret
        = MMA_ERR_ALL_ID_USED ∧
      (fullTable slot0).state = AVG_USED ∧
      (((Call.free 0).after fullTable) slot0).state = AVG_USED ∧
      avg_free fullTable 0 = { ret := MMA_ERR_ID_UNREGISTERED, mmaList := fullTable } ∧
      (avg_free sampleTable 1).ret = MMA_SUCCESS ∧
      (∃ h : 1 < MAX_AVERAGES, (sampleTable ⟨1, h⟩).state = AVG_UNUSED) :=
  have hcount : MAX_AVERAGES ≤ successfulRegistrations mmaList_init twoRegistrations := by
    simp only [twoRegistrations, successfulRegistrations, Call.after, avg_register_eq]
    decide
  have hfree : (avg_free sampleTable 1).ret = MMA_SUCCESS := by decide
  ⟨hcount,
    used_slot_stays_used.2.2.2 mmaList_init twoRegistrations releaseAttempts 0 hcount,
    rfl,
    used_slot_stays_used.1 fullTable (Call.free 0) slot0 rfl,
    used_slot_stays_used.2.1 fullTable 0 (by decide) rfl,
    hfree,
    used_slot_stays_used.2.2.1 sampleTable 1 hfree⟩

/-- One call of `avg_moveTheAverage` on a slot that satisfies the invariant and whose sum is at
most `NUMBER_OF_SAMPLES * M`, with a sample of at most `M`: both properties still hold after the
call. -/
theorem avg_moveTheAverage_bound (mmaList : Registry) (avgID v M : Nat)
    (h : avgID < MAX_AVERAGES) (hinv : SlotInv (mmaList ⟨avgID, h⟩))
    (hb : (mmaList ⟨avgID, h⟩).sum ≤ NUMBER_OF_SAMPLES * M) (hv : v ≤ M) :
    SlotInv ((avg_moveTheAverage mmaList avgID v).mmaList ⟨avgID, h⟩) ∧
      ((avg_moveTheAverage mmaList avgID v).mmaList ⟨avgID, h⟩).sum
        ≤ NUMBER_OF_SAMPLES * M := by
  rw [avg_moveTheAverage_of_lt mmaList avgID v h]
  split
  · exact ⟨hinv, hb⟩
  · rename_i hno
    have hno2 : overflowTest (mmaList ⟨avgID, h⟩) v = false := by simpa using hno
    obtain ⟨_, h2, h3, h4, _⟩ := moveSlot_exact (mmaList ⟨avgID, h⟩) v hinv hno2
    simp only [setSlot_same]
    refine ⟨⟨h4, h3⟩, ?_⟩
    rw [h2]
    obtain ⟨havg, _⟩ := hinv
    simp only [NUMBER_OF_SAMPLES] at havg hb ⊢
    omega

/-- With samples of at most 8191 nothing is rejected: one call of `avg_moveTheAverage` on a slot
that satisfies the invariant and whose sum is at most `NUMBER_OF_SAMPLES * M` does not return
`MMA_ERR_OVERFLOW`, and it stores the exact recurrence. -/
theorem avg_moveTheAverage_accepts (mmaList : Registry) (avgID v M : Nat)
    (h : avgID < MAX_AVERAGES) (hinv : SlotInv (mmaList ⟨avgID, h⟩))
    (hb : (mmaList ⟨avgID, h⟩).sum ≤ NUMBER_OF_SAMPLES * M) (hv : v ≤ M) (hM : M ≤ 8191) :
    (avg_moveTheAverage mmaList avgID v).ret ≠ MMA_ERR_OVERFLOW ∧
      ((avg_moveTheAverage mmaList avgID v).mmaList ⟨avgID, h⟩).sum
        = (mmaList ⟨avgID, h⟩).sum - (mmaList ⟨avgID, h⟩).sum / NUMBER_OF_SAMPLES + v := by
  have hno : overflowTest (mmaList ⟨avgID, h⟩) v = false := by
    have hiff := overflowTest_iff (mmaList ⟨avgID, h⟩) v hinv
    have hnot : ¬ 65535 + (mmaList ⟨avgID, h⟩).average
        < (mmaList ⟨avgID, h⟩).sum + v := by
      obtain ⟨havg, _⟩ := hinv
      simp only [NUMBER_OF_SAMPLES] at havg hb
      omega
    cases hc : overflowTest (mmaList ⟨avgID, h⟩) v
    · rfl
    · exact absurd (hiff.1 hc) hnot
  obtain ⟨_, h2, _, _, _⟩ := moveSlot_exact (mmaList ⟨avgID, h⟩) v hinv hno
  rw [avg_moveTheAverage_of_lt mmaList avgID v h, hno]
  simp only [Bool.false_eq_true, if_false, setSlot_same]
  refine ⟨by simp, ?_⟩
  rw [h2, hinv.1]

theorem moveCalls_bound (avgID M : Nat) (h : avgID < MAX_AVERAGES) (vs : List Nat) :
    ∀ mmaList : Registry, SlotInv (mmaList ⟨avgID, h⟩) →
      (mmaList ⟨avgID, h⟩).sum ≤ NUMBER_OF_SAMPLES * M → (∀ v ∈ vs, v ≤ M) →
      SlotInv ((moveCalls mmaList avgID vs) ⟨avgID, h⟩) ∧
        ((moveCalls mmaList avgID vs) ⟨avgID, h⟩).sum ≤ NUMBER_OF_SAMPLES * M := by
  induction vs with
  | nil =>
    intro mmaList hinv hb _
    exact ⟨hinv, hb⟩
  | cons v vs ih =>
    intro mmaList hinv hb hvs
    obtain ⟨h1, h2⟩ := avg_moveTheAverage_bound mmaList avgID v M h hinv hb
      (hvs v (List.mem_cons_self v vs))
    simp only [moveCalls]
    exact ih _ h1 h2 (fun w hw => hvs w (List.mem_cons_of_mem v hw))

/-- C19: the average never exceeds the largest sample. For a slot with sum 0 and average 0 and a
bound `M`, after `avg_moveTheAverage` was called for that slot with any samples that are all at
most `M`, the slot has sum ≤ `NUMBER_OF_SAMPLES * M` and average ≤ `M`; and when `M ≤ 8191` the
next such sample is not rejected with `MMA_ERR_OVERFLOW` either, so none of the updates is. -/
theorem average_bounded_by_samples (mmaList : Registry) (avgID M : Nat)
    (h : avgID < MAX_AVERAGES) (hsum : (mmaList ⟨avgID, h⟩).sum = 0)
    (havg : (mmaList ⟨avgID, h⟩).average = 0) (vs : List Nat) (hvs : ∀ v ∈ vs, v ≤ M) :
    ((moveCalls mmaList avgID vs) ⟨avgID, h⟩).sum ≤ NUMBER_OF_SAMPLES * M ∧
      ((moveCalls mmaList avgID vs) ⟨avgID, h⟩).average ≤ M ∧
      (M ≤ 8191 → ∀ v : Nat, v ≤ M →
        (avg_moveTheAverage (moveCalls mmaList avgID vs) avgID v).ret ≠ MMA_ERR_OVERFLOW) := by
  have hinv0 : SlotInv (mmaList ⟨avgID, h⟩) := by
    unfold SlotInv
    rw [hsum, havg]
    simp
  have hb0 : (mmaList ⟨avgID, h⟩).sum ≤ NUMBER_OF_SAMPLES * M := by
    rw [hsum]
    exact Nat.zero_le _
  obtain ⟨hinv, hb⟩ := moveCalls_bound avgID M h vs mmaList hinv0 hb0 hvs
  refine ⟨hb, ?_, ?_⟩
  · obtain ⟨ha, _⟩ := hinv
    simp only [NUMBER_OF_SAMPLES] at ha hb
    omega
  · intro hM v hv
    exact (avg_moveTheAverage_accepts _ avgID v M h hinv hb hv hM).1

/-- Witness of C19: the samples 80 and 8, bounded by 100, given to the freshly registered
slot 0. -/
theorem average_bounded_by_samples_witness :
    (freshTable slot0).sum = 0 ∧ (freshTable slot0).average = 0 ∧
      (∀ v ∈ [80, 8], v ≤ 100) ∧
      ((moveCalls freshTable 0 [80, 8]) slot0).sum ≤ NUMBER_OF_SAMPLES * 100 ∧
      ((moveCalls freshTable 0 [80, 8]) slot0).average ≤ 100 ∧
      (avg_moveTheAverage (moveCalls freshTable 0 [80, 8]) 0 100).ret ≠ MMA_ERR_OVERFLOW :=
  have hsum : (freshTable slot0).sum = 0 := by
    simp only [freshTable, avg_register_eq]
    decide
  have havg : (freshTable slot0).average = 0 := by
    simp only [freshTable, avg_register_eq]
    decide
  have hvs : ∀ v ∈ [80, 8], v ≤ 100 := by decide
  have hmain := average_bounded_by_samples freshTable 0 100 (by decide) hsum havg [80, 8] hvs
  ⟨hsum, havg, hvs, hmain.1, hmain.2.1, hmain.2.2 (by decide) 100 (le_refl 100)⟩

theorem repeatMove_inv (mmaList : Registry) (avgID v : Nat) (h : avgID < MAX_AVERAGES)
    (hinv : SlotInv (mmaList ⟨avgID, h⟩))
    (hb : (mmaList ⟨avgID, h⟩).sum ≤ NUMBER_OF_SAMPLES * v) (n : Nat) :
    SlotInv ((repeatMove mmaList avgID v n) ⟨avgID, h⟩) ∧
      ((repeatMove mmaList avgID v n) ⟨avgID, h⟩).sum ≤ NUMBER_OF_SAMPLES * v := by
  induction n with
  | zero => exact ⟨hinv, hb⟩
  | succ n ih =>
    simp only [repeatMove]
    exact avg_moveTheAverage_bound _ avgID v v h ih.1 ih.2 (le_refl v)

/-- C20: convergence on a constant signal. For a sample `v ≤ 8191` given again and again to a
slot that starts with sum 0 and average 0, the averages never decrease from one update to the
next, never exceed `v`, no update is rejected as overflow, and from `NUMBER_OF_SAMPLES * v`
updates on the sum is the fixed point `NUMBER_OF_SAMPLES * v` and the average equals `v`
exactly. -/
theorem constant_signal_converges (mmaList : Registry) (avgID v : Nat)
    (h : avgID < MAX_AVERAGES) (hv : v ≤ 8191) (hsum : (mmaList ⟨avgID, h⟩).sum = 0)
    (havg : (mmaList ⟨avgID, h⟩).average = 0) :
    (∀ n : Nat, ((repeatMove mmaList avgID v n) ⟨avgID, h⟩).average
        ≤ ((repeatMove mmaList avgID v (n + 1)) ⟨avgID, h⟩).average) ∧
      (∀ n : Nat, ((repeatMove mmaList avgID v n) ⟨avgID, h⟩).average ≤ v) ∧
      (∀ n : Nat,
        (avg_moveTheAverage (repeatMove mmaList avgID v n) avgID v).ret ≠ MMA_ERR_OVERFLOW) ∧
      ∃ k : Nat, ∀ n : Nat, k ≤ n →
        ((repeatMove mmaList avgID v n) ⟨avgID, h⟩).average = v ∧
        ((repeatMove mmaList avgID v n) ⟨avgID, h⟩).sum = NUMBER_OF_SAMPLES * v := by
  have hinv0 : SlotInv (mmaList ⟨avgID, h⟩) := by
    unfold SlotInv
    rw [hsum, havg]
    simp
  have hb0 : (mmaList ⟨avgID, h⟩).sum ≤ NUMBER_OF_SAMPLES * v := by
    rw [hsum]
    exact Nat.zero_le _
  have hI := repeatMove_inv mmaList avgID v h hinv0 hb0
  have hstep : ∀ n : Nat, ((repeatMove mmaList avgID v (n + 1)) ⟨avgID, h⟩).sum
      = ((repeatMove mmaList avgID v n) ⟨avgID, h⟩).sum
        - ((repeatMove mmaList avgID v n) ⟨avgID, h⟩).sum / NUMBER_OF_SAMPLES + v := by
    intro n
    simp only [repeatMove]
    exact (avg_moveTheAverage_accepts _ avgID v v h (hI n).1 (hI n).2 (le_refl v) hv).2
  have hlow : ∀ n : Nat, n ≤ ((repeatMove mmaList avgID v n) ⟨avgID, h⟩).sum ∨
      ((repeatMove mmaList avgID v n) ⟨avgID, h⟩).sum = NUMBER_OF_SAMPLES * v := by
    intro n
    induction n with
    | zero => left; exact Nat.zero_le _
    | succ n ih =>
      have hs := hstep n
      have hb := (hI n).2
      simp only [NUMBER_OF_SAMPLES] at hs hb ih ⊢
      omega
  refine ⟨?_, ?_, ?_, NUMBER_OF_SAMPLES * v, ?_⟩
  · intro n
    have hs := hstep n
    have hb := (hI n).2
    have ha := (hI n).1.1
    have ha1 := (hI (n + 1)).1.1
    simp only [NUMBER_OF_SAMPLES] at hs hb ha ha1
    omega
  · intro n
    have hb := (hI n).2
    have ha := (hI n).1.1
    simp only [NUMBER_OF_SAMPLES] at hb ha
    omega
  · intro n
    exact (avg_moveTheAverage_accepts _ avgID v v h (hI n).1 (hI n).2 (le_refl v) hv).1
  · intro n hn
    have hb := (hI n).2
    have ha := (hI n).1.1
    have hl := hlow n
    simp only [NUMBER_OF_SAMPLES] at hb ha hl hn ⊢
    omega

/-- Witness of C20: the sample 10 given again and again to the freshly registered slot 0. -/
theorem constant_signal_converges_witness :
    (freshTable slot0).sum = 0 ∧ (freshTable slot0).average = 0 ∧
      (∀ n : Nat, ((repeatMove freshTable 0 10 n) slot0).average
        ≤ ((repeatMove freshTable 0 10 (n + 1)) slot0).average) ∧
      (∀ n : Nat, ((repeatMove freshTable 0 10 n) slot0).average ≤ 10) ∧
      (∀ n : Nat,
        (avg_moveTheAverage (repeatMove freshTable 0 10 n) 0 10).ret ≠ MMA_ERR_OVERFLOW) ∧
      ∃ k : Nat, ∀ n : Nat, k ≤ n →
        ((repeatMove freshTable 0 10 n) slot0).average = 10 ∧
        ((repeatMove freshTable 0 10 n) slot0).sum = NUMBER_OF_SAMPLES * 10 :=
  have hsum : (freshTable slot0).sum = 0 := by
    simp only [freshTable, avg_register_eq]
    decide
  have havg : (freshTable slot0).average = 0 := by
    simp only [freshTable, avg_register_eq]
    decide
  ⟨hsum, havg, constant_signal_converges freshTable 0 10 (by decide) (by decide) hsum havg⟩

end MMA
